import Mathlib

/-!
Verification development for the vectl embedded vector-cluster store.

The development shallowly embeds the core of the store:
the K-means clustering strategy (kmeans_clustering.cpp),
the store orchestrator (vector_cluster_store.cpp), the strategy
(de)serialization, and the auxiliary vmap file format of
saveIndex/loadIndex.

Modelling conventions:
* 32-bit floats are modelled by exact rationals; std::sqrt is modelled by
  ratSqrt, which is exact on rationals that are squares of rationals, and
  every theorem below either evaluates it only on perfect squares or is
  independent of its values.
* std::unordered_map is modelled by an association list carrying an
  explicit iteration order (the order of a C++ unordered_map is
  unspecified, so every order that a list can represent is a possible
  behaviour of the source); operator[] with a missing key
  default-constructs, modelled by the defaulted helpers below.
* std::set of u32 is modelled by a Finset (the code only inserts, erases,
  queries size and sums over member sets, all order-independent).
* machine integers are Nat; the fields hold u32/u64 values in all states
  the theorems quantify over, and the byte-level encoders truncate
  explicitly.
* device I/O: the backing device is modelled as a regular file, a map
  from byte offsets to the float arrays written there plus a file size;
  pread of a span that lies inside the file succeeds (unwritten bytes
  read as zeros), pread past the end is a short transfer, which the
  source treats as failure; pwrite always succeeds and extends the file.
* std::sort is unstable; it is modelled by a stable insertion sort, one
  of the permitted behaviours of the source.
-/

namespace VecStore

/-- Rational vector, the model of std::vector of float of a fixed dimension. -/
abbrev Vec := List ℚ

/-- Fuel-driven integer Newton iteration for square roots (a structurally
recursive equivalent of Nat.sqrt, so that concrete evaluations reduce in
the kernel). -/
def sqrtGo (n : Nat) : Nat → Nat → Nat
  | guess, 0 => guess
  | guess, fuel + 1 =>
    let next := (guess + n / guess) / 2
    if next < guess then sqrtGo n next fuel else guess

/-- Integer square root via Newton iteration started above the root. -/
def isqrt (n : Nat) : Nat := if n ≤ 1 then n else sqrtGo n (n / 2 + 1) n

/-- Model of std::sqrt on the rationals: exact whenever the argument is the
square of a rational with square numerator and denominator, arbitrary
otherwise.  All theorems below either evaluate it only at perfect squares
or do not depend on its values. -/
def ratSqrt (x : ℚ) : ℚ := (isqrt x.num.toNat : ℚ) / (isqrt x.den : ℚ)

/-! ### Association lists with explicit iteration order -/

/-- Lookup in an association list (std::unordered_map::find). -/
def alookup {α : Type} (k : Nat) : List (Nat × α) → Option α
  | [] => none
  | (a, b) :: rest => if k = a then some b else alookup k rest

/-- Assignment m[k] = v: replaces in place if the key is present, otherwise
appends (one fixed choice of the unspecified position a new key takes in
the iteration order of a C++ unordered_map). -/
def alupdate {α : Type} (k : Nat) (v : α) : List (Nat × α) → List (Nat × α)
  | [] => [(k, v)]
  | (a, b) :: rest => if k = a then (k, v) :: rest else (a, b) :: alupdate k v rest

/-- Mutation m[k] = f(m[k]) where operator[] default-constructs d when the
key is absent. -/
def almodify {α : Type} (k : Nat) (d : α) (f : α → α) : List (Nat × α) → List (Nat × α)
  | [] => [(k, f d)]
  | (a, b) :: rest => if k = a then (k, f b) :: rest else (a, b) :: almodify k d f rest

/-- Plain operator[] access for its default-insertion side effect only. -/
def alensure {α : Type} (k : Nat) (d : α) (l : List (Nat × α)) : List (Nat × α) :=
  if (alookup k l).isSome then l else l ++ [(k, d)]

/-- Erasure m.erase(k) of every binding of k. -/
def alerase {α : Type} (k : Nat) : List (Nat × α) → List (Nat × α)
  | [] => []
  | (a, b) :: rest => if k = a then alerase k rest else (a, b) :: alerase k rest

/-! ### A stable model of std::sort -/

/-- Stable insertion respecting the strict "comes before" comparator lt:
x is placed before the first element that does not strictly precede it. -/
def insertCmp {α : Type} (lt : α → α → Bool) (x : α) : List α → List α
  | [] => [x]
  | y :: ys => if lt y x then y :: insertCmp lt x ys else x :: y :: ys

/-- Stable insertion sort, a permitted refinement of std::sort with
comparator lt. -/
def sortCmp {α : Type} (lt : α → α → Bool) : List α → List α
  | [] => []
  | x :: xs => insertCmp lt x (sortCmp lt xs)

/-! ### Data model (clustering_interface.h / kmeans_clustering.h) -/

/-- ClusterInfo of clustering_interface.h. -/
structure ClusterInfo where
  cluster_id : Nat
  centroid : Vec
  start_offset : Nat
  vector_count : Nat
  capacity : Nat
deriving DecidableEq, Repr

/-- Value-initialized ClusterInfo, the result of unordered_map operator[]
on a missing cluster id. -/
def defaultCI : ClusterInfo := ⟨0, [], 0, 0, 0⟩

/-- In-memory state of KMeansClusteringStrategy.  The initialized flag of
the source is permanently true after initialize and is therefore omitted:
initializeCentroids is unreachable through the store, which constructs
the strategy via initialize before any other call. -/
structure KState where
  vector_dim : Nat
  max_clusters : Nat
  centroids : List (Nat × Vec)
  cluster_members : List (Nat × Finset Nat)
  vector_to_cluster : List (Nat × Nat)
  vectors : List (Nat × Vec)
  cluster_info : List (Nat × ClusterInfo)
deriving DecidableEq

/-- Member set of a cluster (empty for an absent key, matching both the
find-based reads and operator[] default insertion). -/
def membersD (s : KState) (cid : Nat) : Finset Nat :=
  (alookup cid s.cluster_members).getD ∅

/-- KMeansClusteringStrategy::calculateDistance: Euclidean distance.
The source indexes both vectors by the length of the first; the model
truncates to the common length, which agrees with the source on the
equal-length vectors of every state quantified over below. -/
def calculateDistance (v1 v2 : Vec) : ℚ :=
  ratSqrt ((List.zipWith (fun a b => (a - b) * (a - b)) v1 v2).foldl (· + ·) 0)

/-- One step of the scan in KMeansClusteringStrategy::findClosestCentroid.
The source seeds the scan with FLT_MAX, which every distance improves;
the model uses an Option accumulator for the same effect. -/
def closestAcc (v : Vec) (acc : Option (Nat × ℚ)) (c : Nat × Vec) : Option (Nat × ℚ) :=
  let d := calculateDistance v c.2
  match acc with
  | none => some (c.1, d)
  | some (bid, bd) => if d < bd then some (c.1, d) else some (bid, bd)

/-- KMeansClusteringStrategy::findClosestCentroid: first centroid in
iteration order achieving the strictly smallest distance; 0 when the
centroid map is empty. -/
def findClosestCentroid (cents : List (Nat × Vec)) (v : Vec) : Nat :=
  ((cents.foldl (closestAcc v) none).map Prod.fst).getD 0

/-- KMeansClusteringStrategy::assignToCluster for an initialized strategy. -/
def assignToCluster (s : KState) (v : Vec) : Nat :=
  findClosestCentroid s.centroids v

/-- Component access vectors_[id][i] used by updateCentroid; total with
defaults, faithful on states where members hold stored vectors of the
strategy dimension. -/
def vecAt (s : KState) (id : Nat) (i : Nat) : ℚ :=
  (((alookup id s.vectors).getD []).getD i 0)

/-- Mean of the member vectors of a set, componentwise, as computed by
KMeansClusteringStrategy::updateCentroid (sum over the member set, then
divide by its size). -/
def centroidMean (s : KState) (m : Finset Nat) : Vec :=
  (List.range s.vector_dim).map (fun i => (m.sum (fun id => vecAt s id i)) / (m.card : ℚ))

/-- KMeansClusteringStrategy::updateCentroid: leaves the centroid as is
when the cluster is empty (the operator[] access on cluster_members_
still default-inserts an empty set); otherwise recomputes the centroid as
the mean of the member vectors and mirrors it into cluster_info_. -/
def updateCentroid (s : KState) (cid : Nat) : KState :=
  let m := membersD s cid
  let s0 := { s with cluster_members := alensure cid ∅ s.cluster_members }
  if m = ∅ then s0
  else
    let nc := centroidMean s m
    { s0 with
      centroids := alupdate cid nc s0.centroids,
      cluster_info :=
        match alookup cid s0.cluster_info with
        | some ci => alupdate cid { ci with centroid := nc } s0.cluster_info
        | none => s0.cluster_info }

/-- KMeansClusteringStrategy::addVector. -/
def addVector (s : KState) (v : Vec) (id : Nat) : KState :=
  let s1 := { s with vectors := alupdate id v s.vectors }
  let cid := findClosestCentroid s1.centroids v
  let s2 := { s1 with
    vector_to_cluster := alupdate id cid s1.vector_to_cluster,
    cluster_members := almodify cid ∅ (insert id) s1.cluster_members,
    cluster_info := almodify cid defaultCI
      (fun ci => { ci with vector_count := ci.vector_count + 1 }) s1.cluster_info }
  updateCentroid s2 cid

/-- KMeansClusteringStrategy::removeVector.  The vector_count decrement is
a u32 decrement; on the states quantified over below the count is the
member-set size, which is positive, so Nat subtraction agrees. -/
def removeVector (s : KState) (id : Nat) : Bool × KState :=
  match alookup id s.vector_to_cluster with
  | none => (false, s)
  | some cid =>
    let s1 := { s with
      vector_to_cluster := alerase id s.vector_to_cluster,
      cluster_members := almodify cid ∅ (fun m => m.erase id) s.cluster_members,
      vectors := alerase id s.vectors,
      cluster_info := almodify cid defaultCI
        (fun ci => { ci with vector_count := ci.vector_count - 1 }) s.cluster_info }
    (true, updateCentroid s1 cid)

/-- Comparator of the std::sort in findClosestClusters (ascending by
distance). -/
def ltDistAsc (a b : Nat × ℚ) : Bool := decide (a.2 < b.2)

/-- KMeansClusteringStrategy::findClosestClusters. -/
def findClosestClusters (cents : List (Nat × Vec)) (q : Vec) (n : Nat) : List Nat :=
  let ds := cents.map (fun c => (c.1, calculateDistance q c.2))
  ((sortCmp ltDistAsc ds).take n).map Prod.fst

/-- KMeansClusteringStrategy::getClusterCentroid. -/
def getClusterCentroid (s : KState) (cid : Nat) : Vec :=
  (alookup cid s.centroids).getD (List.replicate s.vector_dim 0)

/-- One iteration of the assignment-application loop of rebalance. -/
def rebalanceStep (st : KState) (p : Nat × Nat) : KState :=
  let oldc := (alookup p.1 st.vector_to_cluster).getD 0
  if oldc ≠ p.2 then
    { st with
      cluster_members :=
        almodify p.2 ∅ (insert p.1)
          (almodify oldc ∅ (fun m => m.erase p.1) st.cluster_members),
      cluster_info :=
        almodify p.2 defaultCI (fun ci => { ci with vector_count := ci.vector_count + 1 })
          (almodify oldc defaultCI (fun ci => { ci with vector_count := ci.vector_count - 1 })
            st.cluster_info),
      vector_to_cluster := alupdate p.1 p.2 st.vector_to_cluster }
  else st

/-- KMeansClusteringStrategy::rebalance: one Lloyd iteration. -/
def rebalance (s : KState) : Bool × KState :=
  let newAssign := s.vectors.map (fun p => (p.1, findClosestCentroid s.centroids p.2))
  let changed := newAssign.any (fun p => (alookup p.1 s.vector_to_cluster).getD 0 ≠ p.2)
  if changed then
    let s1 := newAssign.foldl rebalanceStep s
    (true, (s1.centroids.map Prod.fst).foldl updateCentroid s1)
  else (false, s)

/-! ### Strategy serialization (KMeansClusteringStrategy::serialize and
ClusterInfo::serialize)

The byte stream is modelled at field granularity: one token per
little-endian field the source memcpys.  Every u32 token stands for 4
bytes, u64 for 8, f32 for 4 and i16 for 2 (STok.byteLen); an f32 token
carries the exact rational the source's float holds, which memcpy
round-trips bit-exactly.  The info_size prefix of each ClusterInfo block
is the byte length of the block exactly as the source computes it, and
the reader's advance-by-info_size is modelled by checking that the
parsed block has exactly that byte length. -/

/-- One fixed-width little-endian field of the serialized stream. -/
inductive STok where
  | u32 (n : Nat)
  | u64 (n : Nat)
  | f32 (q : ℚ)
  | i16 (z : Int)
deriving DecidableEq, Repr

/-- Byte width of a field. -/
def STok.byteLen : STok → Nat
  | .u32 _ => 4
  | .u64 _ => 8
  | .f32 _ => 4
  | .i16 _ => 2

/-- Byte length of a token stream. -/
def tokBytes (l : List STok) : Nat := (l.map STok.byteLen).foldl (· + ·) 0

/-- Largest absolute centroid component (the scale-factor scan of
ClusterInfo::serialize). -/
def maxAbs (v : Vec) : ℚ := v.foldl (fun m x => max m |x|) 0

/-- Quantization scale of ClusterInfo::serialize: max |c_i| / 32767, or
1.0 when the max is below 1e-10. -/
def quantScale (v : Vec) : ℚ :=
  let m := maxAbs v
  if m < 1 / 10000000000 then 1 else m / 32767

/-- Model of std::round: round half away from zero. -/
def roundAway (x : ℚ) : Int := if 0 ≤ x then ⌊x + 1 / 2⌋ else -⌊-x + 1 / 2⌋

/-- ClusterInfo::serialize: header fields followed by the centroid
quantized to 16-bit integers. -/
def serClusterInfo (ci : ClusterInfo) : List STok :=
  let sc := quantScale ci.centroid
  [.u32 ci.cluster_id, .u32 ci.vector_count, .u32 ci.capacity,
   .u64 ci.start_offset, .u32 ci.centroid.length, .f32 sc]
  ++ ci.centroid.map (fun c => .i16 (roundAway (c / sc)))

/-- Dequantized centroid as reconstructed by ClusterInfo::deserialize. -/
def dequantCentroid (v : Vec) : Vec :=
  let sc := quantScale v
  v.map (fun c => (roundAway (c / sc) : ℚ) * sc)

/-- Parse a run of quantized i16 centroid components. -/
def parseI16s : Nat → List STok → Option (List Int × List STok)
  | 0, toks => some ([], toks)
  | n + 1, .i16 z :: toks =>
    match parseI16s n toks with
    | some (zs, rest) => some (z :: zs, rest)
    | none => none
  | _ + 1, _ => none

/-- ClusterInfo::deserialize, positionally on the token stream. -/
def parseClusterInfo : List STok → Option (ClusterInfo × List STok)
  | .u32 cid :: .u32 cnt :: .u32 cap :: .u64 off :: .u32 dim :: .f32 sc :: rest =>
    match parseI16s dim rest with
    | some (zs, rest') => some (⟨cid, zs.map (fun (z : Int) => (z : ℚ) * sc), off, cnt, cap⟩, rest')
    | none => none
  | _ => none

/-- Parse a run of f32 vector components. -/
def parseF32s : Nat → List STok → Option (Vec × List STok)
  | 0, toks => some ([], toks)
  | n + 1, .f32 q :: toks =>
    match parseF32s n toks with
    | some (v, rest) => some (q :: v, rest)
    | none => none
  | _ + 1, _ => none

/-- Parse the per-vector records (vector_id, cluster_id, D floats) of
KMeansClusteringStrategy::deserialize. -/
def parseVecEntries (dim : Nat) : Nat → List STok → Option (List (Nat × Nat × Vec) × List STok)
  | 0, toks => some ([], toks)
  | n + 1, .u32 id :: .u32 cid :: rest =>
    match parseF32s dim rest with
    | some (v, rest') =>
      match parseVecEntries dim n rest' with
      | some (es, rest'') => some ((id, cid, v) :: es, rest'')
      | none => none
    | none => none
  | _ + 1, _ => none

/-- Parse the per-cluster records (cluster_id, info_size, ClusterInfo
block).  The source advances the byte cursor by info_size after handing
the sliced block to ClusterInfo::deserialize; the model checks that the
block the reader consumed is exactly info_size bytes wide, which is the
condition under which the source's cursor stays synchronized. -/
def parseClusters : Nat → List STok → Option (List (Nat × ClusterInfo) × List STok)
  | 0, toks => some ([], toks)
  | n + 1, .u32 cid :: .u32 isz :: rest =>
    match parseClusterInfo rest with
    | some (ci, rest') =>
      if isz = 28 + 2 * ci.centroid.length then
        match parseClusters n rest' with
        | some (cis, rest'') => some ((cid, ci) :: cis, rest'')
        | none => none
      else none
    | none => none
  | _ + 1, _ => none

/-- KMeansClusteringStrategy::serialize. -/
def serializeK (s : KState) : List STok :=
  [.u32 s.vector_dim, .u32 s.max_clusters, .u32 s.vectors.length]
  ++ (s.vectors.map (fun (p : Nat × Vec) =>
        STok.u32 p.1 :: STok.u32 ((alookup p.1 s.vector_to_cluster).getD 0) :: p.2.map STok.f32)).flatten
  ++ [.u32 s.cluster_info.length]
  ++ (s.cluster_info.map (fun (p : Nat × ClusterInfo) =>
        STok.u32 p.1 :: STok.u32 (tokBytes (serClusterInfo p.2)) :: serClusterInfo p.2)).flatten

/-- One step of the per-vector reconstruction loop of
KMeansClusteringStrategy::deserialize: stores the vector and assignment,
creates the member set and a zero centroid on first reference of a
cluster, and inserts into the member set. -/
def buildStep (dim : Nat) (st : KState) (e : Nat × Nat × Vec) : KState :=
  let st1 := { st with
    vectors := alupdate e.1 e.2.2 st.vectors,
    vector_to_cluster := alupdate e.1 e.2.1 st.vector_to_cluster }
  let st2 :=
    if (alookup e.2.1 st1.cluster_members).isSome then st1
    else { st1 with
      cluster_members := alupdate e.2.1 ∅ st1.cluster_members,
      centroids := alupdate e.2.1 (List.replicate dim 0) st1.centroids }
  { st2 with cluster_members := almodify e.2.1 ∅ (insert e.1) st2.cluster_members }

/-- Per-vector reconstruction loop of KMeansClusteringStrategy::deserialize. -/
def buildFromVecEntries (dim : Nat) (es : List (Nat × Nat × Vec)) (s : KState) : KState :=
  es.foldl (buildStep dim) s

/-- KMeansClusteringStrategy::deserialize.  The trailing token remainder is
ignored exactly as the source ignores trailing bytes; out-of-bounds
memcpys of the source on malformed input are modelled as parse failure. -/
def deserializeK (toks : List STok) : Option KState :=
  match toks with
  | .u32 dim :: .u32 maxc :: .u32 nv :: rest =>
    match parseVecEntries dim nv rest with
    | some (es, .u32 nc :: rest2) =>
      match parseClusters nc rest2 with
      | some (cis, _) =>
        let base : KState := ⟨dim, maxc, [], [], [], [], []⟩
        let s1 := buildFromVecEntries dim es base
        let newInfo := cis.foldl (fun l (p : Nat × ClusterInfo) => alupdate p.1 p.2 l) s1.cluster_info
        let s2 := { s1 with cluster_info := newInfo }
        some ((s2.cluster_info.map Prod.fst).foldl updateCentroid s2)
      | none => none
    | _ => none
  | _ => none

/-! ### Vector store orchestrator (vector_cluster_store.cpp) -/

/-- VectorEntry of clustering_interface.h; the metadata string is a byte
list. -/
structure VEntry where
  vector_id : Nat
  cluster_id : Nat
  offset : Nat
  metadata : List Nat
deriving DecidableEq, Repr

/-- In-memory state of VectorClusterStore together with the backing file.
The device is the written-offset map plus the file size; alloc_cursor is
the static next_offset of allocateVectorSpace. -/
structure StoreState where
  vector_dim : Nat
  block_size : Nat
  device_size : Nat
  cluster_map_offset : Nat
  vector_map_offset : Nat
  data_offset : Nat
  next_vector_id : Nat
  alloc_cursor : Nat
  device : List (Nat × Vec)
  vector_map : List (Nat × VEntry)
  strat : KState
deriving DecidableEq

/-- Block-align a cursor upward, as in allocateVectorSpace. -/
def alignUp (c b : Nat) : Nat := (c + b - 1) / b * b

/-- VectorClusterStore::allocateVectorSpace: the monotonic data-region
cursor, aligned up to the block size. -/
def allocateVectorSpace (s : StoreState) : Nat × StoreState :=
  let aligned := alignUp s.alloc_cursor s.block_size
  (aligned, { s with alloc_cursor := aligned + s.vector_dim * 4 })

/-- VectorClusterStore::writeVector via writeAligned: pwrite on a regular
file succeeds and extends the file when writing past its end. -/
def writeVectorAt (s : StoreState) (off : Nat) (v : Vec) : StoreState :=
  { s with
    device := alupdate off v s.device,
    device_size := max s.device_size (off + 4 * s.vector_dim) }

/-- Pad or truncate a raw span to the store dimension (vector.resize
before the raw read; unwritten file bytes read as zeros). -/
def fitVec (dim : Nat) (l : Vec) : Vec := l.take dim ++ List.replicate (dim - l.length) 0

/-- VectorClusterStore::readVector via readAligned: a pread whose span
extends past the end of the file is a short transfer, which readAligned
reports as failure; otherwise exactly dim floats are returned. -/
def readVectorAt (s : StoreState) (off : Nat) : Option Vec :=
  if off + 4 * s.vector_dim ≤ s.device_size then
    some (fitVec s.vector_dim ((alookup off s.device).getD []))
  else none

/-- MAX_METADATA_SIZE of writeVectorMap/readVectorMap. -/
def MAX_METADATA_SIZE : Nat := 10240

/-- MAX_VECTORS of writeVectorMap/readVectorMap. -/
def MAX_VECTORS : Nat := 1000000

/-- Bytes needed by writeVectorMap: a u32 count plus, per entry, the
20-byte fixed part and the metadata bytes. -/
def vmapBytesNeeded (s : StoreState) : Nat :=
  4 + (s.vector_map.map (fun p => 20 + p.2.metadata.length)).foldl (· + ·) 0

/-- Success condition of VectorClusterStore::writeVectorMap: the count
bound, the per-entry metadata bound, and the region-size bound checked in
that order (device writes themselves are modelled as succeeding). -/
def writeVectorMapOk (s : StoreState) : Bool :=
  decide (s.vector_map.length ≤ MAX_VECTORS) &&
  s.vector_map.all (fun p => decide (p.2.metadata.length ≤ MAX_METADATA_SIZE)) &&
  decide (vmapBytesNeeded s ≤ s.data_offset - s.vector_map_offset)

/-- Success condition of VectorClusterStore::writeClusterMap: the
serialized strategy plus its u32 length prefix must fit the cluster-map
region. -/
def writeClusterMapOk (s : StoreState) : Bool :=
  decide (4 + tokBytes (serializeK s.strat) ≤ s.vector_map_offset - s.cluster_map_offset)

/-- VectorClusterStore::storeVector.  The dimension check precedes any
mutation; the metadata bound is only enforced inside writeVectorMap,
after the in-memory maps, the strategy and next_vector_id have already
been updated.  writeHeader is modelled as succeeding. -/
def storeVector (s : StoreState) (id : Nat) (v : Vec) (meta : List Nat) : Bool × StoreState :=
  if v.length ≠ s.vector_dim then (false, s)
  else
    let cid := assignToCluster s.strat v
    let res := allocateVectorSpace s
    let s2 := writeVectorAt res.2 res.1 v
    let s3 := { s2 with
      vector_map := alupdate id ⟨id, cid, res.1, meta⟩ s2.vector_map,
      strat := addVector s2.strat v id,
      next_vector_id := if id ≥ s2.next_vector_id then id + 1 else s2.next_vector_id }
    if writeVectorMapOk s3 && writeClusterMapOk s3 then (true, s3) else (false, s3)

/-- VectorClusterStore::deleteVector: looks the entry up, reads the raw
vector from the device (failure aborts before any mutation), then removes
the id from the strategy and the vector map; the bytes read are not
passed to the removal. -/
def deleteVector (s : StoreState) (id : Nat) : Bool × StoreState :=
  match alookup id s.vector_map with
  | none => (false, s)
  | some e =>
    match readVectorAt s e.offset with
    | none => (false, s)
    | some _ =>
      let s1 := { s with
        strat := (removeVector s.strat id).2,
        vector_map := alerase id s.vector_map }
      if writeVectorMapOk s1 && writeClusterMapOk s1 then (true, s1) else (false, s1)

/-- VectorClusterStore::retrieveVector. -/
def retrieveVector (s : StoreState) (id : Nat) : Option Vec :=
  match alookup id s.vector_map with
  | none => none
  | some e => readVectorAt s e.offset

/-- VectorClusterStore::calculateCosineSimilarity. -/
def calculateCosineSimilarity (v1 v2 : Vec) : ℚ :=
  if v1.length ≠ v2.length then 0
  else
    let dot := (List.zipWith (· * ·) v1 v2).foldl (· + ·) 0
    let n1 := (v1.map (fun x => x * x)).foldl (· + ·) 0
    let n2 := (v2.map (fun x => x * x)).foldl (· + ·) 0
    if n1 = 0 ∨ n2 = 0 then 0
    else dot / (ratSqrt n1 * ratSqrt n2)

/-- Candidate-gathering phase of findSimilarVectors: for each of the 3
closest clusters in order, scan the vector map in iteration order and
read each member vector (entries whose device read fails are skipped). -/
def simCandidates (s : StoreState) (q : Vec) : List (Nat × ℚ) :=
  ((findClosestClusters s.strat.centroids q 3).map (fun cid =>
    s.vector_map.filterMap (fun (p : Nat × VEntry) =>
      if p.2.cluster_id = cid then
        match readVectorAt s p.2.offset with
        | some v => some (p.1, calculateCosineSimilarity q v)
        | none => none
      else none))).flatten

/-- Comparator of the std::sort in findSimilarVectors (descending by
similarity; the vector id does not participate). -/
def ltSimDesc (a b : Nat × ℚ) : Bool := decide (b.2 < a.2)

/-- VectorClusterStore::findSimilarVectors. -/
def findSimilarVectors (s : StoreState) (q : Vec) (k : Nat) : List (Nat × ℚ) :=
  if q.length ≠ s.vector_dim then []
  else (sortCmp ltSimDesc (simCandidates s q)).take k

/-- One iteration of the reassignment loop of performMaintenance: re-read
the vector, recompute its closest cluster with the current (post-
rebalance) centroids, and on a change move the entry to a freshly
allocated slot. -/
def maintStep (st : StoreState) (p : Nat × VEntry) : StoreState :=
  match readVectorAt st p.2.offset with
  | none => st
  | some v =>
    let nc := assignToCluster st.strat v
    if nc ≠ p.2.cluster_id then
      let res := allocateVectorSpace st
      let st2 := writeVectorAt res.2 res.1 v
      { st2 with vector_map := alupdate p.1 { p.2 with cluster_id := nc, offset := res.1 } st2.vector_map }
    else st

/-- VectorClusterStore::performMaintenance. -/
def performMaintenance (s : StoreState) : Bool × StoreState :=
  let reb := rebalance s.strat
  if reb.1 then
    let s1 := { s with strat := reb.2 }
    let s2 := s1.vector_map.foldl maintStep s1
    if writeVectorMapOk s2 && writeClusterMapOk s2 then (true, s2) else (false, s2)
  else
    if writeClusterMapOk s then (true, s) else (false, s)

/-! ### Byte-level vmap formats

saveIndex/loadIndex write and read the auxiliary vmap file, and
writeVectorMap/readVectorMap write and read the on-device vector-map
region.  Both use the same entry layout
(vector_id, cluster_id, offset, metadata_size, metadata bytes), but the
file LOADER reads the vector_id field twice (once into the map key and
once into VectorEntry::vector_id) while the saver writes it once; the
on-device pair is symmetric.  Bytes are Nats below 256. -/

/-- Little-endian 4-byte encoding of a u32 value (truncating a wider
value, as the source's casts do). -/
def u32LE (n : Nat) : List Nat :=
  [n % 256, n / 256 % 256, n / 256 ^ 2 % 256, n / 256 ^ 3 % 256]

/-- Little-endian 8-byte encoding of a u64 value. -/
def u64LE (n : Nat) : List Nat :=
  [n % 256, n / 256 % 256, n / 256 ^ 2 % 256, n / 256 ^ 3 % 256,
   n / 256 ^ 4 % 256, n / 256 ^ 5 % 256, n / 256 ^ 6 % 256, n / 256 ^ 7 % 256]

/-- Read a little-endian u32 from the head of a byte stream. -/
def readU32 : List Nat → Option (Nat × List Nat)
  | b0 :: b1 :: b2 :: b3 :: rest =>
    some (b0 + 256 * b1 + 256 ^ 2 * b2 + 256 ^ 3 * b3, rest)
  | _ => none

/-- Read a little-endian u64 from the head of a byte stream. -/
def readU64 : List Nat → Option (Nat × List Nat)
  | b0 :: b1 :: b2 :: b3 :: b4 :: b5 :: b6 :: b7 :: rest =>
    some (b0 + 256 * b1 + 256 ^ 2 * b2 + 256 ^ 3 * b3 + 256 ^ 4 * b4 +
          256 ^ 5 * b5 + 256 ^ 6 * b6 + 256 ^ 7 * b7, rest)
  | _ => none

/-- Byte image of one vmap entry as written by both saveIndex and
writeVectorMap: the map key once, then cluster_id, offset, metadata size
and metadata bytes. -/
def vmapEntryBytes (p : Nat × VEntry) : List Nat :=
  u32LE p.1 ++ u32LE p.2.cluster_id ++ u64LE p.2.offset ++
  u32LE p.2.metadata.length ++ p.2.metadata

/-- Byte image of the vmap as written by VectorClusterStore::saveIndex
(and, with the same layout, writeVectorMap): u32 count then the entries
in map iteration order. -/
def saveVmapBytes (entries : List (Nat × VEntry)) : List Nat :=
  u32LE entries.length ++ (entries.map vmapEntryBytes).flatten

/-- Entry loop of VectorClusterStore::loadIndex: reads the vector_id
field twice per entry, first into the local map key and then into
VectorEntry::vector_id, before cluster_id, offset and metadata; bumps
next_vector_id for every key read.  Returns the entries in read order
together with the updated next_vector_id and the remaining bytes. -/
def loadVmapLoop : Nat → Nat → List Nat → Option (List (Nat × VEntry) × Nat × List Nat)
  | 0, next, bs => some ([], next, bs)
  | n + 1, next, bs =>
    match readU32 bs with
    | none => none
    | some (key, bs1) =>
      match readU32 bs1 with
      | none => none
      | some (vid, bs2) =>
        match readU32 bs2 with
        | none => none
        | some (cid, bs3) =>
          match readU64 bs3 with
          | none => none
          | some (off, bs4) =>
            match readU32 bs4 with
            | none => none
            | some (msz, bs5) =>
              if msz ≤ bs5.length then
                match loadVmapLoop n (if key ≥ next then key + 1 else next) (bs5.drop msz) with
                | some (es, next2, rest) =>
                  some ((key, ⟨vid, cid, off, bs5.take msz⟩) :: es, next2, rest)
                | none => none
              else none

/-- Entry loop of VectorClusterStore::readVectorMap: reads the vector_id
field once (storing it into both the key and the entry), enforces the
metadata bound, and bumps next_vector_id per key. -/
def readVmapLoop : Nat → Nat → List Nat → Option (List (Nat × VEntry) × Nat × List Nat)
  | 0, next, bs => some ([], next, bs)
  | n + 1, next, bs =>
    match readU32 bs with
    | none => none
    | some (vid, bs1) =>
      match readU32 bs1 with
      | none => none
      | some (cid, bs2) =>
        match readU64 bs2 with
        | none => none
        | some (off, bs3) =>
          match readU32 bs3 with
          | none => none
          | some (msz, bs4) =>
            if msz > MAX_METADATA_SIZE then none
            else if msz ≤ bs4.length then
              match readVmapLoop n (if vid ≥ next then vid + 1 else next) (bs4.drop msz) with
              | some (es, next2, rest) =>
                some ((vid, ⟨vid, cid, off, bs4.take msz⟩) :: es, next2, rest)
              | none => none
            else none

/-- Vmap part of VectorClusterStore::loadIndex: count prefix then the
asymmetric entry loop. -/
def loadVmapFile (bs : List Nat) (next : Nat) : Option (List (Nat × VEntry) × Nat) :=
  match readU32 bs with
  | none => none
  | some (n, rest) =>
    match loadVmapLoop n next rest with
    | some (es, next', _) => some (es, next')
    | none => none

/-! ### Invariants of the data model -/

/-- Invariant 1: the strategy's vector-to-cluster mapping matches each
store entry's cluster_id and the id lies in that cluster's member set. -/
def Inv1 (s : StoreState) : Prop :=
  ∀ p ∈ s.vector_map,
    alookup p.1 s.strat.vector_to_cluster = some p.2.cluster_id ∧
    p.1 ∈ membersD s.strat p.2.cluster_id

/-- Invariant 2: every cluster's member-set size equals its cluster_info
vector_count. -/
def Inv2 (s : StoreState) : Prop :=
  ∀ p ∈ s.strat.cluster_info, (membersD s.strat p.1).card = p.2.vector_count

/-- Invariant 3: next_vector_id exceeds every live vector id. -/
def Inv3 (s : StoreState) : Prop :=
  ∀ p ∈ s.vector_map, p.1 < s.next_vector_id

/-- Invariant 4: every entry offset is at least data_offset, block
aligned, and its D*4-byte span lies within the device. -/
def Inv4 (s : StoreState) : Prop :=
  ∀ p ∈ s.vector_map,
    s.data_offset ≤ p.2.offset ∧ p.2.offset % s.block_size = 0 ∧
    p.2.offset + 4 * s.vector_dim ≤ s.device_size

instance (s : StoreState) : Decidable (Inv1 s) := by unfold Inv1; exact inferInstance

instance (s : StoreState) : Decidable (Inv2 s) := by unfold Inv2; exact inferInstance

instance (s : StoreState) : Decidable (Inv3 s) := by unfold Inv3; exact inferInstance

instance (s : StoreState) : Decidable (Inv4 s) := by unfold Inv4; exact inferInstance

/-- Internal well-formedness of a strategy state, as established by
initialize and preserved by the store's usage: key lists are duplicate
free, the centroid map is seeded and keyed like cluster_info, the
vector, assignment and member structures agree, and counts match member
sets. -/
def WFK (s : KState) : Prop :=
  (s.vectors.map Prod.fst).Nodup ∧
  (s.vector_to_cluster.map Prod.fst).Nodup ∧
  (s.cluster_info.map Prod.fst).Nodup ∧
  (s.centroids.map Prod.fst).Nodup ∧
  (s.cluster_members.map Prod.fst).Nodup ∧
  s.centroids ≠ [] ∧
  (∀ p ∈ s.vectors, (alookup p.1 s.vector_to_cluster).isSome) ∧
  (∀ p ∈ s.vector_to_cluster, (alookup p.1 s.vectors).isSome) ∧
  (∀ p ∈ s.vector_to_cluster, (alookup p.2 s.cluster_info).isSome) ∧
  (∀ p ∈ s.centroids, (alookup p.1 s.cluster_info).isSome) ∧
  (∀ p ∈ s.vectors, p.2.length = s.vector_dim) ∧
  (∀ p ∈ s.vector_to_cluster, p.1 ∈ membersD s p.2) ∧
  (∀ p ∈ s.cluster_members, ∀ id ∈ p.2, alookup id s.vector_to_cluster = some p.1) ∧
  (∀ p ∈ s.cluster_info, (membersD s p.1).card = p.2.vector_count)

instance (s : KState) : Decidable (WFK s) := by unfold WFK; exact inferInstance

/-- Well-formedness of a store state: a well-formed strategy, the four
invariants, and the allocator cursor inside the data region. -/
def WFStore (s : StoreState) : Prop :=
  WFK s.strat ∧ Inv1 s ∧ Inv2 s ∧ Inv3 s ∧ Inv4 s ∧
  s.data_offset ≤ s.alloc_cursor ∧ 0 < s.block_size ∧
  (s.vector_map.map Prod.fst).Nodup

instance (s : StoreState) : Decidable (WFStore s) := by unfold WFStore; exact inferInstance

/-! ### Concrete states for the counterexamples and witnesses -/

/-- One stored entry: id 7, cluster 3, a data-region offset, 4 metadata
bytes. -/
def cexC1entry : VEntry := ⟨7, 3, 62915072, [0, 0, 0, 0]⟩

/-- Two clusters with identical centroids, the higher id first in
iteration order. -/
def cexC5cents : List (Nat × Vec) := [(1, [0]), (0, [0])]

/-- A store (D = 1) holding equal vectors under ids 5 and 3 in one
cluster, with id 5 first in map iteration order. -/
def cexC4store : StoreState :=
  ⟨1, 512, 104857600, 512, 52429312, 62915072, 6, 62915072,
   [(62915072, [1]), (62915584, [1])],
   [(5, ⟨5, 0, 62915072, []⟩), (3, ⟨3, 0, 62915584, []⟩)],
   ⟨1, 1, [(0, [0])], [(0, {5, 3})], [(5, 0), (3, 0)],
    [(5, [1]), (3, [1])], [(0, ⟨0, [1], 0, 2, 1000⟩)]⟩⟩

/-- A store (D = 1) with centroids 0 and 5 and vectors 4 and 100 whose
rebalance moves vector 2, shifts centroid 1 to 52, and thereby flips the
closest cluster of vector 1 after the centroid update. -/
def cexC3store : StoreState :=
  ⟨1, 512, 104857600, 512, 52429312, 62915072, 3, 62915588,
   [(62915072, [4]), (62915584, [100])],
   [(1, ⟨1, 1, 62915072, []⟩), (2, ⟨2, 0, 62915584, []⟩)],
   ⟨1, 2, [(0, [0]), (1, [5])], [(0, {2}), (1, {1})], [(1, 1), (2, 0)],
    [(1, [4]), (2, [100])],
    [(0, ⟨0, [0], 0, 1, 1000⟩), (1, ⟨1, [5], 0, 1, 1000⟩)]⟩⟩

/-- A strategy (D = 1) whose single cluster is empty with its centroid
frozen at 3 (reachable by adding one vector equal to 3 and removing
it). -/
def cexC2k : KState := ⟨1, 1, [(0, [3])], [], [], [], [(0, ⟨0, [3], 0, 0, 1000⟩)]⟩

/-- An empty freshly initialized store with D = 1 and one cluster. -/
def cexC6store : StoreState :=
  ⟨1, 512, 104857600, 512, 52429312, 62915072, 0, 62915072, [], [],
   ⟨1, 1, [(0, [0])], [(0, (∅ : Finset Nat))], [], [], [(0, ⟨0, [0], 0, 0, 1000⟩)]⟩⟩

/-- State of cexC6store after storeVector(1, [5], meta) has run up to the
persistence step, for any metadata. -/
def cexC6after (meta : List Nat) : StoreState :=
  ⟨1, 512, 104857600, 512, 52429312, 62915072, 2, 62915076,
   [(62915072, [5])], [(1, ⟨1, 0, 62915072, meta⟩)],
   ⟨1, 1, [(0, [5])], [(0, ({1} : Finset Nat))], [(1, 0)], [(1, [5])],
    [(0, ⟨0, [5], 0, 1, 1000⟩)]⟩⟩

def witC7k : KState :=
  ⟨1, 1, [(0, [5])], [(0, ({1, 2} : Finset Nat))], [(1, 0), (2, 0)],
   [(1, [4]), (2, [6])], [(0, ⟨0, [5], 0, 2, 1000⟩)]⟩

def witC9k : KState :=
  ⟨1, 2, [(0, [0]), (1, [10])], [(0, ({1} : Finset Nat)), (1, (∅ : Finset Nat))],
   [(1, 0)], [(1, [1])], [(0, ⟨0, [1], 0, 1, 1000⟩), (1, ⟨1, [10], 0, 0, 1000⟩)]⟩

def witC6store2 : StoreState :=
  ⟨2, 512, 104857600, 512, 52429312, 62915072, 0, 62915072, [], [],
   ⟨2, 1, [(0, [0, 0])], [(0, (∅ : Finset Nat))], [], [], [(0, ⟨0, [0, 0], 0, 0, 1000⟩)]⟩⟩

def witC8store : StoreState :=
  ⟨1, 512, 104857600, 512, 52429312, 62915072, 3, 62915072, [],
   [(2, ⟨2, 0, 62915072, []⟩)],
   ⟨1, 1, [(0, [0])], [(0, ({2} : Finset Nat))], [(2, 0)], [(2, [7])],
    [(0, ⟨0, [7], 0, 1, 1000⟩)]⟩⟩

def witC8bytes : List Nat :=
  u32LE 9 ++ u32LE 0 ++ u64LE 62915072 ++ u32LE 0

def witC5cents : List (Nat × Vec) := [(0, [0]), (1, [10])]

/-- Internal agreement of a strategy state st with the key structure of a
base state k, maintained across the rebalance loops: assignments and
member sets mirror each other, counts match member sets, every assigned
cluster has a cluster_info entry, cluster_info keys are unchanged, and
the assignment map keeps its key set. -/
def StratSync (k st : KState) : Prop :=
  (∀ j c, alookup j st.vector_to_cluster = some c → j ∈ membersD st c) ∧
  (∀ c j, j ∈ membersD st c → alookup j st.vector_to_cluster = some c) ∧
  (∀ c ci, alookup c st.cluster_info = some ci → (membersD st c).card = ci.vector_count) ∧
  (∀ j c, alookup j st.vector_to_cluster = some c → (alookup c st.cluster_info).isSome) ∧
  st.cluster_info.map Prod.fst = k.cluster_info.map Prod.fst ∧
  (st.vector_to_cluster.map Prod.fst).Nodup ∧
  (∀ j, (alookup j st.vector_to_cluster).isSome ↔ (alookup j k.vector_to_cluster).isSome)

/-- Store-level facts preserved across the maintStep fold of
performMaintenance: the strategy and the scalar configuration fields are
untouched, the vector-map key list is unchanged, the allocator cursor
stays inside the data region, and invariants 3 and 4 hold. -/
def MaintSync (s1 st : StoreState) : Prop :=
  st.strat = s1.strat ∧ st.vector_dim = s1.vector_dim ∧ st.block_size = s1.block_size ∧
  st.data_offset = s1.data_offset ∧ st.next_vector_id = s1.next_vector_id ∧
  st.vector_map.map Prod.fst = s1.vector_map.map Prod.fst ∧
  st.data_offset ≤ st.alloc_cursor ∧ Inv3 st ∧ Inv4 st

/-- ClusterInfo as restored by ClusterInfo::deserialize: header fields
exact, centroid dequantized. -/
def deqCI (ci : ClusterInfo) : ClusterInfo := { ci with centroid := dequantCentroid ci.centroid }

/-- The per-vector records KMeansClusteringStrategy::serialize emits. -/
def roundEntries (k : KState) : List (Nat × Nat × Vec) :=
  k.vectors.map (fun p => (p.1, (alookup p.1 k.vector_to_cluster).getD 0, p.2))

/-- The state after deserialize's per-vector reconstruction loop. -/
def roundS1 (k : KState) : KState :=
  buildFromVecEntries k.vector_dim (roundEntries k)
    ⟨k.vector_dim, k.max_clusters, [], [], [], [], []⟩

/-- The cluster_info map rebuilt by deserialize's per-cluster loop. -/
def roundInfo (k : KState) : List (Nat × ClusterInfo) :=
  (k.cluster_info.map (fun p => (p.1, deqCI p.2))).foldl
    (fun l (p : Nat × ClusterInfo) => alupdate p.1 p.2 l) (roundS1 k).cluster_info

/-- The state right before deserialize's final centroid-recompute loop. -/
def roundS2 (k : KState) : KState := { roundS1 k with cluster_info := roundInfo k }

/-- The strategy state deserialize reconstructs from serialize's output. -/
def roundState (k : KState) : KState :=
  ((roundS2 k).cluster_info.map Prod.fst).foldl updateCentroid (roundS2 k)

/-- A store (D = 1) whose single entry points at offset 200, past the
100-byte device, so the pre-removal device read fails. -/
def witC10store : StoreState :=
  ⟨1, 512, 100, 0, 0, 0, 8, 0, [], [(7, ⟨7, 0, 200, []⟩)],
   ⟨1, 1, [(0, [0])], [(0, {7})], [(7, 0)], [(7, [1])], [(0, ⟨0, [0], 0, 1, 1000⟩)]⟩⟩

/-! ### Theorems -/

theorem alookup_eq_none {α : Type} (k : Nat) (l : List (Nat × α)) :
    alookup k l = none ↔ ∀ p ∈ l, k ≠ p.1 := by
  induction l with
  | nil => simp [alookup]
  | cons p rest ih =>
    obtain ⟨a, b⟩ := p
    by_cases h : k = a <;> simp [alookup, h, ih]

theorem alookup_isSome {α : Type} (k : Nat) (l : List (Nat × α)) :
    (alookup k l).isSome ↔ ∃ p ∈ l, k = p.1 := by
  induction l with
  | nil => simp [alookup]
  | cons p rest ih =>
    obtain ⟨a, b⟩ := p
    by_cases h : k = a <;> simp [alookup, h, ih]

theorem alookup_mem {α : Type} {k : Nat} {v : α} {l : List (Nat × α)}
    (h : alookup k l = some v) : (k, v) ∈ l := by
  induction l with
  | nil => simp [alookup] at h
  | cons p rest ih =>
    obtain ⟨a, b⟩ := p
    by_cases hk : k = a
    · subst hk
      simp [alookup] at h
      subst h; exact List.mem_cons_self _ _
    · simp only [alookup, if_neg hk] at h
      exact List.mem_cons_of_mem _ (ih h)

theorem mem_alookup {α : Type} {k : Nat} {v : α} {l : List (Nat × α)}
    (hnd : (l.map Prod.fst).Nodup) (h : (k, v) ∈ l) : alookup k l = some v := by
  induction l with
  | nil => simp at h
  | cons p rest ih =>
    obtain ⟨a, b⟩ := p
    simp only [List.map_cons, List.nodup_cons] at hnd
    rcases List.mem_cons.mp h with h | h
    · obtain ⟨h1, h2⟩ := Prod.mk.injEq .. ▸ h
      simp_all [alookup]
    · have hk : k ≠ a := by
        intro hkp
        exact hnd.1 (hkp ▸ (List.mem_map.mpr ⟨(k, v), h, rfl⟩))
      simp only [alookup, if_neg hk]
      exact ih hnd.2 h

theorem alookup_alupdate_self {α : Type} (k : Nat) (v : α) (l : List (Nat × α)) :
    alookup k (alupdate k v l) = some v := by
  induction l with
  | nil => simp [alupdate, alookup]
  | cons p rest ih =>
    obtain ⟨a, b⟩ := p
    by_cases h : k = a <;> simp [alupdate, h, alookup, ih]

theorem alookup_alupdate_ne {α : Type} {k k' : Nat} (hne : k' ≠ k) (v : α)
    (l : List (Nat × α)) : alookup k' (alupdate k v l) = alookup k' l := by
  induction l with
  | nil => simp [alupdate, alookup, hne]
  | cons p rest ih =>
    obtain ⟨a, b⟩ := p
    by_cases h : k = a
    · subst h
      simp [alupdate, alookup, hne]
    · by_cases h' : k' = a <;> simp [alupdate, h, alookup, h', ih]

theorem mem_alupdate {α : Type} {p : Nat × α} {k : Nat} {v : α} {l : List (Nat × α)}
    (h : p ∈ alupdate k v l) : p = (k, v) ∨ p ∈ l := by
  induction l with
  | nil => simp [alupdate] at h; left; exact h
  | cons q rest ih =>
    obtain ⟨a, b⟩ := q
    by_cases hk : k = a
    · simp only [alupdate, if_pos hk] at h
      rcases List.mem_cons.mp h with h | h
      · left; exact h
      · right; exact List.mem_cons_of_mem _ h
    · simp only [alupdate, if_neg hk] at h
      rcases List.mem_cons.mp h with h | h
      · right; exact h ▸ List.mem_cons_self _ _
      · rcases ih h with h | h
        · left; exact h
        · right; exact List.mem_cons_of_mem _ h

theorem self_mem_alupdate {α : Type} (k : Nat) (v : α) (l : List (Nat × α)) :
    (k, v) ∈ alupdate k v l := by
  induction l with
  | nil => simp [alupdate]
  | cons q rest ih =>
    obtain ⟨a, b⟩ := q
    by_cases hk : k = a <;> simp [alupdate, hk, ih]

theorem alupdate_keys {α : Type} {k : Nat} (v : α) {l : List (Nat × α)}
    (h : (alookup k l).isSome) :
    (alupdate k v l).map Prod.fst = l.map Prod.fst := by
  induction l with
  | nil => simp [alookup] at h
  | cons p rest ih =>
    obtain ⟨a, b⟩ := p
    by_cases hk : k = a
    · simp [alupdate, hk]
    · simp only [alookup, if_neg hk] at h
      simp [alupdate, hk, ih h]

theorem almodify_keys {α : Type} {k : Nat} (d : α) (f : α → α) {l : List (Nat × α)}
    (h : (alookup k l).isSome) :
    (almodify k d f l).map Prod.fst = l.map Prod.fst := by
  induction l with
  | nil => simp [alookup] at h
  | cons p rest ih =>
    obtain ⟨a, b⟩ := p
    by_cases hk : k = a
    · simp [almodify, hk]
    · simp only [alookup, if_neg hk] at h
      simp [almodify, hk, ih h]

theorem alookup_almodify_self {α : Type} (k : Nat) (d : α) (f : α → α)
    (l : List (Nat × α)) :
    alookup k (almodify k d f l) = some (f ((alookup k l).getD d)) := by
  induction l with
  | nil => simp [almodify, alookup]
  | cons p rest ih =>
    obtain ⟨a, b⟩ := p
    by_cases h : k = a <;> simp [almodify, h, alookup, ih]

theorem alookup_almodify_ne {α : Type} {k k' : Nat} (hne : k' ≠ k) (d : α)
    (f : α → α) (l : List (Nat × α)) :
    alookup k' (almodify k d f l) = alookup k' l := by
  induction l with
  | nil => simp [almodify, alookup, hne]
  | cons p rest ih =>
    obtain ⟨a, b⟩ := p
    by_cases h : k = a
    · subst h
      simp [almodify, alookup, hne]
    · by_cases h' : k' = a <;> simp [almodify, h, alookup, h', ih]

theorem alookup_append {α : Type} (k : Nat) (l1 l2 : List (Nat × α)) :
    alookup k (l1 ++ l2) =
      match alookup k l1 with
      | some v => some v
      | none => alookup k l2 := by
  induction l1 with
  | nil => simp [alookup]
  | cons p rest ih =>
    obtain ⟨a, b⟩ := p
    by_cases h : k = a <;> simp [alookup, h, ih]

theorem alookup_alensure {α : Type} (k k' : Nat) (d : α) (l : List (Nat × α)) :
    ((alookup k' (alensure k d l)).getD d) = ((alookup k' l).getD d) := by
  unfold alensure
  by_cases h : (alookup k l).isSome
  · simp [h]
  · simp only [h, Bool.false_eq_true, if_false]
    rw [alookup_append]
    cases hl : alookup k' l with
    | some v => simp
    | none =>
      by_cases hk : k' = k
      · subst hk; simp [alookup]
      · simp [alookup, hk]

theorem alookup_alerase_self {α : Type} (k : Nat) (l : List (Nat × α)) :
    alookup k (alerase k l) = none := by
  induction l with
  | nil => simp [alerase, alookup]
  | cons p rest ih =>
    obtain ⟨a, b⟩ := p
    by_cases h : k = a
    · simpa [alerase, h] using (h ▸ ih)
    · simp [alerase, h, alookup, ih]

theorem alookup_alerase_ne {α : Type} {k k' : Nat} (hne : k' ≠ k)
    (l : List (Nat × α)) : alookup k' (alerase k l) = alookup k' l := by
  induction l with
  | nil => simp [alerase, alookup]
  | cons p rest ih =>
    obtain ⟨a, b⟩ := p
    by_cases h : k = a
    · subst h
      simp [alerase, alookup, hne, ih]
    · by_cases h' : k' = a <;> simp [alerase, h, alookup, h', ih]

theorem insertCmp_perm {α : Type} (lt : α → α → Bool) (x : α) (l : List α) :
    List.Perm (insertCmp lt x l) (x :: l) := by
  induction l with
  | nil => simp [insertCmp]
  | cons y ys ih =>
    by_cases h : lt y x
    · simp only [insertCmp, h, if_true]
      exact (ih.cons y).trans (List.Perm.swap x y ys)
    · simp [insertCmp, h]

theorem sortCmp_perm {α : Type} (lt : α → α → Bool) (l : List α) :
    List.Perm (sortCmp lt l) l := by
  induction l with
  | nil => simp [sortCmp]
  | cons x xs ih =>
    exact (insertCmp_perm lt x (sortCmp lt xs)).trans (ih.cons x)

theorem insertCmp_pairwise {α : Type} (lt : α → α → Bool)
    (hasym : ∀ a b, lt a b = true → lt b a = false)
    (hneg : ∀ a b c, lt c b = false → lt b a = false → lt c a = false)
    (x : α) {l : List α} (hl : l.Pairwise (fun a b => lt b a = false)) :
    (insertCmp lt x l).Pairwise (fun a b => lt b a = false) := by
  induction l with
  | nil => simp [insertCmp]
  | cons y ys ih =>
    rcases List.pairwise_cons.mp hl with ⟨hy, hys⟩
    by_cases h : lt y x
    · simp only [insertCmp, h, if_true]
      refine List.pairwise_cons.mpr ⟨?_, ih hys⟩
      intro z hz
      rcases List.mem_cons.mp ((insertCmp_perm lt x ys).mem_iff.mp hz) with rfl | hz
      · exact hasym y z h
      · exact hy z hz
    · have hfalse : lt y x = false := Bool.eq_false_iff.mpr h
      simp only [insertCmp, h, if_false]
      refine List.pairwise_cons.mpr ⟨?_, hl⟩
      intro z hz
      rcases List.mem_cons.mp hz with hz | hz
      · subst hz; exact hfalse
      · exact hneg x y z (hy z hz) hfalse

theorem sortCmp_pairwise {α : Type} (lt : α → α → Bool)
    (hasym : ∀ a b, lt a b = true → lt b a = false)
    (hneg : ∀ a b c, lt c b = false → lt b a = false → lt c a = false)
    (l : List α) :
    (sortCmp lt l).Pairwise (fun a b => lt b a = false) := by
  induction l with
  | nil => simp [sortCmp]
  | cons x xs ih => exact insertCmp_pairwise lt hasym hneg x ih

unseal Rat.mul Rat.inv Rat.add Rat.sub in
theorem storeVector_cexC6_shape (meta : List Nat) :
    storeVector cexC6store 1 [5] meta =
      (if writeVectorMapOk (cexC6after meta) && writeClusterMapOk (cexC6after meta)
       then (true, cexC6after meta) else (false, cexC6after meta)) := rfl

theorem metadata_check_fails (meta : List Nat) (hm : meta.length = 10241) :
    ([(1, (⟨1, 0, 62915072, meta⟩ : VEntry))].all
      (fun p => decide (p.2.metadata.length ≤ MAX_METADATA_SIZE))) = false := by
  simp [hm, MAX_METADATA_SIZE]

theorem writeVectorMapOk_cexC6_false (meta : List Nat) (hm : meta.length = 10241) :
    writeVectorMapOk (cexC6after meta) = false := by
  unfold writeVectorMapOk
  rw [show (cexC6after meta).vector_map = [(1, ⟨1, 0, 62915072, meta⟩)] from rfl]
  rw [metadata_check_fails meta hm]
  simp

theorem storeVector_cexC6_oversized (meta : List Nat) (hm : meta.length = 10241) :
    (storeVector cexC6store 1 [5] meta).1 = false ∧
    (storeVector cexC6store 1 [5] meta).2.vector_map.length = 1 := by
  rw [storeVector_cexC6_shape, writeVectorMapOk_cexC6_false meta hm]
  simp [cexC6after]

/-! ### Counterexample theorems -/

unseal Rat.mul Rat.inv Rat.add Rat.sub in
/-- C2 counterexample: in the state cexC2k the empty cluster 0 has its
centroid frozen at 3; after serialize followed by deserialize the
strategy reports the zero centroid for cluster 0, an error of 3, far
above the quantization scale 3/32767.  The restored state is therefore
not within quantization error of the original, refuting the claim as
stated. -/
theorem C2_roundtrip_counterexample :
    WFK cexC2k ∧
    getClusterCentroid cexC2k 0 = [3] ∧
    (deserializeK (serializeK cexC2k)).map (fun t => getClusterCentroid t 0) = some [0] ∧
    ¬ |(0 : ℚ) - 3| ≤ quantScale [3] := by decide

unseal Rat.mul Rat.inv Rat.add Rat.sub in
/-- C3 counterexample: cexC3store satisfies invariants 1-4, its
performMaintenance call succeeds, and afterwards invariant 1 fails: the
store loop reassigns entry 1 with the post-update centroids to cluster 0
while the strategy's vector_to_cluster still maps id 1 to cluster 1. -/
theorem C3_maintenance_counterexample :
    (Inv1 cexC3store ∧ Inv2 cexC3store ∧ Inv3 cexC3store ∧ Inv4 cexC3store) ∧
    (performMaintenance cexC3store).1 = true ∧
    ¬ Inv1 (performMaintenance cexC3store).2 := by decide

unseal Rat.mul Rat.inv Rat.add Rat.sub in
/-- C4 counterexample: both candidates have cosine similarity exactly 1,
and the result lists id 5 before id 3, so equal similarities are not
broken by the smaller vector id. -/
theorem C4_search_order_counterexample :
    findSimilarVectors cexC4store [1] 2 = [(5, 1), (3, 1)] ∧
    ¬ List.Pairwise (fun a b => b.2 < a.2 ∨ (a.2 = b.2 ∧ a.1 < b.1))
        (findSimilarVectors cexC4store [1] 2) := by decide

unseal Rat.mul Rat.inv Rat.add Rat.sub in
/-- C5 counterexample: with two clusters at the same centroid listed with
id 1 first, assign_to_cluster returns 1, not the smallest id 0, although
the distances are tied. -/
theorem C5_tie_break_counterexample :
    findClosestCentroid cexC5cents [0] = 1 ∧
    calculateDistance [0] ((alookup 1 cexC5cents).getD []) =
      calculateDistance [0] ((alookup 0 cexC5cents).getD []) ∧ (0 : Nat) < 1 := by decide

/-- C6 counterexample: storing a vector with 10241 metadata bytes into an
empty store fails (the bound is only checked inside writeVectorMap), yet
the in-memory vector map has grown from 0 to 1 entries, so the store is
not unchanged on this failure. -/
theorem C6_metadata_mutation_counterexample :
    (storeVector cexC6store 1 [5] (List.replicate 10241 0)).1 = false ∧
    (storeVector cexC6store 1 [5] (List.replicate 10241 0)).2.vector_map.length = 1 ∧
    cexC6store.vector_map.length = 0 :=
  ⟨(storeVector_cexC6_oversized _ (by rw [List.length_replicate])).1,
   (storeVector_cexC6_oversized _ (by rw [List.length_replicate])).2, rfl⟩

/-- C1: the vmap writer of saveIndex emits the vector id once per entry,
but the loadIndex reader consumes the id field twice, so the parse
desynchronizes: for the single saved entry (id 7, cluster 3, offset
62915072, metadata 0x00000000) the loader succeeds but returns an entry
whose cluster_id is the low half of the saved offset and whose offset is
4·2^32, and the metadata is lost; the loaded vector map is not the saved
one.  This contradicts the documented contract that the reader parses
exactly the layout the writer emits. -/
theorem C1_vmap_file_roundtrip_mismatch :
    loadVmapFile (saveVmapBytes [(7, cexC1entry)]) 8 =
      some ([(7, ⟨3, 62915072, 17179869184, []⟩)], 8) ∧
    (⟨3, 62915072, 17179869184, []⟩ : VEntry) ≠ cexC1entry := by decide

theorem updateCentroid_vector_dim (s : KState) (cid : Nat) :
    (updateCentroid s cid).vector_dim = s.vector_dim := by
  unfold updateCentroid; dsimp only; split <;> rfl

theorem updateCentroid_max_clusters (s : KState) (cid : Nat) :
    (updateCentroid s cid).max_clusters = s.max_clusters := by
  unfold updateCentroid; dsimp only; split <;> rfl

theorem updateCentroid_v2c (s : KState) (cid : Nat) :
    (updateCentroid s cid).vector_to_cluster = s.vector_to_cluster := by
  unfold updateCentroid; dsimp only; split <;> rfl

theorem updateCentroid_vectors (s : KState) (cid : Nat) :
    (updateCentroid s cid).vectors = s.vectors := by
  unfold updateCentroid; dsimp only; split <;> rfl

theorem updateCentroid_cluster_members (s : KState) (cid : Nat) :
    (updateCentroid s cid).cluster_members = alensure cid ∅ s.cluster_members := by
  unfold updateCentroid; dsimp only; split <;> rfl

theorem updateCentroid_membersD (s : KState) (cid c' : Nat) :
    membersD (updateCentroid s cid) c' = membersD s c' := by
  unfold membersD
  rw [updateCentroid_cluster_members]
  exact alookup_alensure cid c' ∅ s.cluster_members

theorem updateCentroid_centroids_of_empty (s : KState) (cid : Nat)
    (h : membersD s cid = ∅) : (updateCentroid s cid).centroids = s.centroids := by
  unfold updateCentroid; dsimp only; rw [if_pos h]

theorem updateCentroid_centroids_self (s : KState) (cid : Nat)
    (h : membersD s cid ≠ ∅) :
    alookup cid (updateCentroid s cid).centroids =
      some (centroidMean s (membersD s cid)) := by
  unfold updateCentroid; dsimp only; rw [if_neg h]
  exact alookup_alupdate_self cid _ s.centroids

theorem updateCentroid_centroids_ne (s : KState) (cid c' : Nat) (h : c' ≠ cid) :
    alookup c' (updateCentroid s cid).centroids = alookup c' s.centroids := by
  unfold updateCentroid; dsimp only; split
  · rfl
  · exact alookup_alupdate_ne h _ s.centroids

theorem updateCentroid_centroids_keys (s : KState) (cid : Nat)
    (h : (alookup cid s.centroids).isSome) :
    (updateCentroid s cid).centroids.map Prod.fst = s.centroids.map Prod.fst := by
  unfold updateCentroid; dsimp only; split
  · rfl
  · exact alupdate_keys _ h

theorem updateCentroid_info_empty (s : KState) (cid : Nat)
    (h : membersD s cid = ∅) : (updateCentroid s cid).cluster_info = s.cluster_info := by
  unfold updateCentroid; dsimp only; rw [if_pos h]

theorem updateCentroid_info_ne (s : KState) (cid c' : Nat) (h : c' ≠ cid) :
    alookup c' (updateCentroid s cid).cluster_info = alookup c' s.cluster_info := by
  unfold updateCentroid; dsimp only; split
  · rfl
  · dsimp only
    split
    · exact alookup_alupdate_ne h _ s.cluster_info
    · rfl

theorem updateCentroid_info_self_of_some (s : KState) (cid : Nat) (ci : ClusterInfo)
    (h : membersD s cid ≠ ∅) (hci : alookup cid s.cluster_info = some ci) :
    alookup cid (updateCentroid s cid).cluster_info =
      some { ci with centroid := centroidMean s (membersD s cid) } := by
  unfold updateCentroid; dsimp only; rw [if_neg h]
  dsimp only
  rw [hci]
  exact alookup_alupdate_self cid _ s.cluster_info

theorem updateCentroid_info_keys (s : KState) (cid : Nat) :
    (updateCentroid s cid).cluster_info.map Prod.fst = s.cluster_info.map Prod.fst := by
  unfold updateCentroid; dsimp only; split
  · rfl
  · dsimp only
    split
    · next ci hci => exact alupdate_keys _ (by rw [hci]; rfl)
    · rfl

theorem updateCentroid_info_count (s : KState) (cid c' : Nat) :
    (alookup c' (updateCentroid s cid).cluster_info).map (fun ci => ci.vector_count) =
      (alookup c' s.cluster_info).map (fun ci => ci.vector_count) := by
  by_cases hc : c' = cid
  · subst hc
    by_cases hm : membersD s c' = ∅
    · rw [updateCentroid_info_empty s c' hm]
    · cases hci : alookup c' s.cluster_info with
      | none =>
        unfold updateCentroid; dsimp only; rw [if_neg hm]
        dsimp only
        rw [hci]
        rw [hci]
      | some ci =>
        rw [updateCentroid_info_self_of_some s c' ci hm hci]
        rfl
  · rw [updateCentroid_info_ne s cid c' hc]

/-- C7: removeVector on a missing id fails and changes nothing; on a
present id it succeeds, removes the id from the vector map,
vector-to-cluster mapping and its cluster's member set, recomputes that
cluster's centroid as the exact mean of the remaining members when some
remain, and leaves the centroid at its last value when the cluster
becomes empty. -/
theorem C7_remove_vector (s : KState) (id : Nat) :
    (alookup id s.vector_to_cluster = none → removeVector s id = (false, s)) ∧
    (∀ cid, alookup id s.vector_to_cluster = some cid →
      (removeVector s id).1 = true ∧
      alookup id (removeVector s id).2.vector_to_cluster = none ∧
      alookup id (removeVector s id).2.vectors = none ∧
      id ∉ membersD (removeVector s id).2 cid ∧
      membersD (removeVector s id).2 cid = (membersD s cid).erase id ∧
      ((membersD s cid).erase id ≠ ∅ →
        alookup cid (removeVector s id).2.centroids =
          some ((List.range s.vector_dim).map (fun i =>
            (((membersD s cid).erase id).sum (fun j => vecAt s j i)) /
              ((((membersD s cid).erase id).card : ℚ))))) ∧
      ((membersD s cid).erase id = ∅ →
        alookup cid (removeVector s id).2.centroids = alookup cid s.centroids)) := by
  constructor
  · intro h
    unfold removeVector
    rw [h]
  · intro cid h
    set s1 : KState := { s with
      vector_to_cluster := alerase id s.vector_to_cluster,
      cluster_members := almodify cid ∅ (fun m => m.erase id) s.cluster_members,
      vectors := alerase id s.vectors,
      cluster_info := almodify cid defaultCI
        (fun ci => { ci with vector_count := ci.vector_count - 1 }) s.cluster_info } with hs1
    have hrm : removeVector s id = (true, updateCentroid s1 cid) := by
      unfold removeVector
      rw [h]
    have hm1 : membersD s1 cid = (membersD s cid).erase id := by
      unfold membersD
      rw [hs1]
      dsimp only
      rw [alookup_almodify_self]
      rfl
    have hmean : centroidMean s1 (membersD s1 cid) =
        (List.range s.vector_dim).map (fun i =>
          (((membersD s cid).erase id).sum (fun j => vecAt s j i)) /
            ((((membersD s cid).erase id).card : ℚ))) := by
      unfold centroidMean
      rw [hm1, hs1]
      dsimp only
      refine List.map_congr_left (fun i _ => ?_)
      congr 1
      refine Finset.sum_congr rfl (fun j hj => ?_)
      unfold vecAt
      dsimp only
      rw [alookup_alerase_ne (Finset.ne_of_mem_erase hj)]
    rw [hrm]
    dsimp only
    refine ⟨rfl, ?_, ?_, ?_, ?_, ?_, ?_⟩
    · rw [updateCentroid_v2c]
      exact alookup_alerase_self id _
    · rw [updateCentroid_vectors]
      exact alookup_alerase_self id _
    · rw [updateCentroid_membersD, hm1]
      exact Finset.not_mem_erase id _
    · rw [updateCentroid_membersD, hm1]
    · intro hne
      rw [updateCentroid_centroids_self s1 cid (by rw [hm1]; exact hne), hmean]
    · intro hemp
      rw [updateCentroid_centroids_of_empty s1 cid (by rw [hm1]; exact hemp)]

unseal Rat.mul Rat.inv Rat.add Rat.sub in
theorem C7_remove_witness :
    (removeVector witC7k 1).1 = true ∧
    alookup 1 (removeVector witC7k 1).2.vector_to_cluster = none ∧
    alookup 1 (removeVector witC7k 1).2.vectors = none ∧
    (1 : Nat) ∉ membersD (removeVector witC7k 1).2 0 ∧
    membersD (removeVector witC7k 1).2 0 = (membersD witC7k 0).erase 1 ∧
    alookup 0 (removeVector witC7k 1).2.centroids =
      some ((List.range witC7k.vector_dim).map (fun i =>
        (((membersD witC7k 0).erase 1).sum (fun j => vecAt witC7k j i)) /
          ((((membersD witC7k 0).erase 1).card : ℚ)))) := by
  have h := (C7_remove_vector witC7k 1).2 0 (by decide)
  exact ⟨h.1, h.2.1, h.2.2.1, h.2.2.2.1, h.2.2.2.2.1, h.2.2.2.2.2.1 (by decide)⟩

theorem addVector_shape (s : KState) (v : Vec) (id : Nat) :
    addVector s v id =
      updateCentroid
        { s with
          vectors := alupdate id v s.vectors,
          vector_to_cluster :=
            alupdate id (findClosestCentroid s.centroids v) s.vector_to_cluster,
          cluster_members :=
            almodify (findClosestCentroid s.centroids v) ∅ (insert id) s.cluster_members,
          cluster_info :=
            almodify (findClosestCentroid s.centroids v) defaultCI
              (fun ci => { ci with vector_count := ci.vector_count + 1 }) s.cluster_info }
        (findClosestCentroid s.centroids v) := rfl

/-- C9: adding an id that the strategy already holds corrupts membership
accounting: if the second assignment hits the same cluster, its member
set does not grow while its vector_count is incremented past the set
size; if it hits a different cluster, the id stays in the old cluster's
member set while also joining the new one. -/
theorem C9_duplicate_store_inconsistency (s : KState) (v : Vec) (id c : Nat)
    (ci : ClusterInfo)
    (h1 : alookup id s.vector_to_cluster = some c)
    (h2 : id ∈ membersD s c)
    (h3 : alookup c s.cluster_info = some ci)
    (h4 : ci.vector_count = (membersD s c).card) :
    (findClosestCentroid s.centroids v = c →
      membersD (addVector s v id) c = membersD s c ∧
      ∃ ci', alookup c (addVector s v id).cluster_info = some ci' ∧
        ci'.vector_count = (membersD (addVector s v id) c).card + 1) ∧
    (findClosestCentroid s.centroids v ≠ c →
      id ∈ membersD (addVector s v id) c ∧
      id ∈ membersD (addVector s v id) (findClosestCentroid s.centroids v)) := by
  set c' := findClosestCentroid s.centroids v with hc'
  set s2 : KState := { s with
    vectors := alupdate id v s.vectors,
    vector_to_cluster := alupdate id c' s.vector_to_cluster,
    cluster_members := almodify c' ∅ (insert id) s.cluster_members,
    cluster_info := almodify c' defaultCI
      (fun ci => { ci with vector_count := ci.vector_count + 1 }) s.cluster_info } with hs2
  have hadd : addVector s v id = updateCentroid s2 c' := addVector_shape s v id
  have hm2self : membersD s2 c' = insert id (membersD s c') := by
    unfold membersD
    rw [hs2]
    dsimp only
    rw [alookup_almodify_self]
    rfl
  constructor
  · intro hc
    rw [hadd, updateCentroid_membersD]
    subst hc
    have hmem : membersD s2 c' = membersD s c' := by
      rw [hm2self, Finset.insert_eq_self.mpr h2]
    constructor
    · exact hmem
    · have hne : membersD s2 c' ≠ ∅ := by
        rw [hm2self]
        exact Finset.insert_ne_empty id _
      have hci2 : alookup c' s2.cluster_info =
          some { ci with vector_count := ci.vector_count + 1 } := by
        rw [hs2]
        dsimp only
        rw [alookup_almodify_self, h3]
        rfl
      refine ⟨{ { ci with vector_count := ci.vector_count + 1 } with
        centroid := centroidMean s2 (membersD s2 c') }, ?_, ?_⟩
      · exact updateCentroid_info_self_of_some s2 c' _ hne hci2
      · dsimp only
        rw [hmem, h4]
  · intro hc
    rw [hadd, updateCentroid_membersD, updateCentroid_membersD]
    constructor
    · have : membersD s2 c = membersD s c := by
        unfold membersD
        rw [hs2]
        dsimp only
        rw [alookup_almodify_ne (fun hcc => hc hcc.symm)]
      rw [this]
      exact h2
    · rw [hm2self]
      exact Finset.mem_insert_self id _

unseal Rat.mul Rat.inv Rat.add Rat.sub in
theorem C9_duplicate_witness :
    membersD (addVector witC9k [1] 1) 0 = membersD witC9k 0 ∧
    ∃ ci', alookup 0 (addVector witC9k [1] 1).cluster_info = some ci' ∧
      ci'.vector_count = (membersD (addVector witC9k [1] 1) 0).card + 1 :=
  (C9_duplicate_store_inconsistency witC9k [1] 1 0 ⟨0, [1], 0, 1, 1000⟩
    (by decide) (by decide) (by decide) (by decide)).1 (by decide)

theorem storeVector_shape (s : StoreState) (id : Nat) (v : Vec) (meta : List Nat)
    (hdim : v.length = s.vector_dim) :
    storeVector s id v meta =
      (let cid := assignToCluster s.strat v
       let res := allocateVectorSpace s
       let s2 := writeVectorAt res.2 res.1 v
       let s3 : StoreState := { s2 with
         vector_map := alupdate id ⟨id, cid, res.1, meta⟩ s2.vector_map,
         strat := addVector s2.strat v id,
         next_vector_id := if id ≥ s2.next_vector_id then id + 1 else s2.next_vector_id }
       if writeVectorMapOk s3 && writeClusterMapOk s3 then (true, s3) else (false, s3)) := by
  unfold storeVector
  rw [if_neg (by rw [hdim]; exact fun hne => hne rfl)]

theorem all_metadata_false {l : List (Nat × VEntry)} {p : Nat × VEntry}
    (hp : p ∈ l) (hbig : p.2.metadata.length > MAX_METADATA_SIZE) :
    (l.all (fun q => decide (q.2.metadata.length ≤ MAX_METADATA_SIZE))) = false := by
  rw [List.all_eq_false]
  exact ⟨p, hp, by simpa using Nat.not_le.mpr hbig⟩

/-- C6 (amended): storeVector fails on a dimension mismatch with the
store exactly unchanged, and fails on metadata longer than
MAX_METADATA_SIZE; in the metadata case the store is NOT unchanged (see
the counterexample): the bound is only checked inside writeVectorMap,
after the in-memory maps and the device have been mutated. -/
theorem C6_store_preconditions_amended (s : StoreState) (id : Nat) (v : Vec)
    (meta : List Nat) :
    (v.length ≠ s.vector_dim → storeVector s id v meta = (false, s)) ∧
    (meta.length > MAX_METADATA_SIZE → (storeVector s id v meta).1 = false) := by
  constructor
  · intro hdim
    unfold storeVector
    rw [if_pos hdim]
  · intro hbig
    by_cases hdim : v.length = s.vector_dim
    · rw [storeVector_shape s id v meta hdim]
      dsimp only
      have hall := all_metadata_false
        (self_mem_alupdate id
          ⟨id, assignToCluster s.strat v, (allocateVectorSpace s).1, meta⟩
          (writeVectorAt (allocateVectorSpace s).2 (allocateVectorSpace s).1 v).vector_map)
        (by exact hbig)
      unfold writeVectorMapOk
      rw [hall]
      simp
    · unfold storeVector
      rw [if_pos hdim]

theorem C6_store_witness :
    storeVector witC6store2 1 [5] [] = (false, witC6store2) :=
  (C6_store_preconditions_amended witC6store2 1 [5] []).1 (by decide)

theorem readVmapLoop_bound :
    ∀ (n next : Nat) (bytes : List Nat) (es : List (Nat × VEntry)) (next2 : Nat)
      (rest : List Nat),
      readVmapLoop n next bytes = some (es, next2, rest) →
      next ≤ next2 ∧ ∀ p ∈ es, p.1 < next2 := by
  intro n
  induction n with
  | zero =>
    intro next bytes es next2 rest h
    simp only [readVmapLoop, Option.some.injEq, Prod.mk.injEq] at h
    obtain ⟨he, hn, -⟩ := h
    subst he; subst hn
    exact ⟨Nat.le_refl _, by simp⟩
  | succ n ih =>
    intro next bytes es next2 rest h
    unfold readVmapLoop at h
    repeat' split at h
    all_goals try exact Option.noConfusion h
    rename_i heq
    obtain ⟨hle, hall⟩ := ih _ _ _ _ _ heq
    simp only [Option.some.injEq, Prod.mk.injEq] at h
    obtain ⟨he, hn, -⟩ := h
    subst he; subst hn
    constructor
    · refine Nat.le_trans ?_ hle
      split <;> omega
    · intro p hp
      rcases List.mem_cons.mp hp with rfl | hp
      · dsimp only
        revert hle
        split <;> omega
      · exact hall p hp

theorem loadVmapLoop_bound :
    ∀ (n next : Nat) (bytes : List Nat) (es : List (Nat × VEntry)) (next2 : Nat)
      (rest : List Nat),
      loadVmapLoop n next bytes = some (es, next2, rest) →
      next ≤ next2 ∧ ∀ p ∈ es, p.1 < next2 := by
  intro n
  induction n with
  | zero =>
    intro next bytes es next2 rest h
    simp only [loadVmapLoop, Option.some.injEq, Prod.mk.injEq] at h
    obtain ⟨he, hn, -⟩ := h
    subst he; subst hn
    exact ⟨Nat.le_refl _, by simp⟩
  | succ n ih =>
    intro next bytes es next2 rest h
    unfold loadVmapLoop at h
    repeat' split at h
    all_goals try exact Option.noConfusion h
    rename_i heq
    obtain ⟨hle, hall⟩ := ih _ _ _ _ _ heq
    simp only [Option.some.injEq, Prod.mk.injEq] at h
    obtain ⟨he, hn, -⟩ := h
    subst he; subst hn
    constructor
    · refine Nat.le_trans ?_ hle
      split <;> omega
    · intro p hp
      rcases List.mem_cons.mp hp with rfl | hp
      · dsimp only
        revert hle
        split <;> omega
      · exact hall p hp

theorem pairIf_snd {c : Prop} [Decidable c] {α : Type} (x : α) :
    (if c then ((true : Bool), x) else ((false : Bool), x)).2 = x := by
  split <;> rfl

/-- C8: storeVector preserves invariant 3 (next_vector_id exceeds every
live id) and bumps next_vector_id to id + 1 when the supplied id reaches
it, and both vector-map loaders (the on-device readVectorMap loop and
the loadIndex vmap file loader) return a next id strictly greater than
every id they load. -/
theorem C8_next_id_exceeds (s : StoreState) (id : Nat) (v : Vec) (meta : List Nat)
    (n next : Nat) (bytes : List Nat) :
    (Inv3 s → (storeVector s id v meta).1 = true → Inv3 (storeVector s id v meta).2) ∧
    (v.length = s.vector_dim → id ≥ s.next_vector_id →
      (storeVector s id v meta).2.next_vector_id = id + 1) ∧
    (∀ es next2 rest, readVmapLoop n next bytes = some (es, next2, rest) →
      ∀ p ∈ es, p.1 < next2) ∧
    (∀ es next2, loadVmapFile bytes next = some (es, next2) →
      ∀ p ∈ es, p.1 < next2) := by
  refine ⟨?_, ?_, ?_, ?_⟩
  · intro hinv _hsucc
    by_cases hdim : v.length = s.vector_dim
    · rw [storeVector_shape s id v meta hdim]
      dsimp only
      rw [pairIf_snd]
      unfold Inv3 at hinv ⊢
      unfold writeVectorAt allocateVectorSpace
      dsimp only
      intro p hp
      rcases mem_alupdate hp with heq | hp
      · subst heq
        dsimp only
        split <;> omega
      · have hb := hinv p hp
        split <;> omega
    · unfold storeVector
      rw [if_pos hdim]
      intro p hp
      exact hinv p hp
  · intro hdim hge
    rw [storeVector_shape s id v meta hdim]
    dsimp only
    rw [pairIf_snd]
    unfold writeVectorAt allocateVectorSpace
    dsimp only
    rw [if_pos hge]
  · intro es next2 rest h
    exact (readVmapLoop_bound n next bytes es next2 rest h).2
  · intro es next2 h
    unfold loadVmapFile at h
    repeat' split at h
    all_goals try exact Option.noConfusion h
    rename_i heq
    simp only [Option.some.injEq, Prod.mk.injEq] at h
    obtain ⟨he, hn⟩ := h
    subst he; subst hn
    exact (loadVmapLoop_bound _ _ _ _ _ _ heq).2

unseal Rat.mul Rat.inv Rat.add Rat.sub in
theorem C8_next_id_witness :
    Inv3 (storeVector witC8store 5 [4] []).2 ∧
    (storeVector witC8store 5 [4] []).2.next_vector_id = 6 ∧
    (∀ p ∈ [(9, (⟨9, 0, 62915072, []⟩ : VEntry))], p.1 < 10) ∧
    (∀ p ∈ [(9, (⟨7, 3, 62915072, []⟩ : VEntry))], p.1 < 10) := by
  refine ⟨?_, ?_, ?_, ?_⟩
  · exact (C8_next_id_exceeds witC8store 5 [4] [] 1 4 witC8bytes).1 (by decide) (by decide)
  · exact (C8_next_id_exceeds witC8store 5 [4] [] 1 4 witC8bytes).2.1 (by decide) (by decide)
  · exact (C8_next_id_exceeds witC8store 5 [4] [] 1 4 witC8bytes).2.2.1
      [(9, ⟨9, 0, 62915072, []⟩)] 10 [] (by decide)
  · exact (C8_next_id_exceeds witC8store 5 [4] [] 1 4
      (u32LE 1 ++ u32LE 9 ++ u32LE 7 ++ u32LE 3 ++ u64LE 62915072 ++ u32LE 0)).2.2.2
      [(9, ⟨7, 3, 62915072, []⟩)] 10 (by decide)

theorem ltDistAsc_asym : ∀ a b : Nat × ℚ, ltDistAsc a b = true → ltDistAsc b a = false := by
  intro a b h
  unfold ltDistAsc at *
  rw [decide_eq_true_iff] at h
  rw [decide_eq_false_iff_not]
  exact lt_asymm h

theorem ltDistAsc_negtrans : ∀ a b c : Nat × ℚ,
    ltDistAsc c b = false → ltDistAsc b a = false → ltDistAsc c a = false := by
  intro a b c h1 h2
  unfold ltDistAsc at *
  rw [decide_eq_false_iff_not] at h1 h2
  rw [decide_eq_false_iff_not]
  exact fun hca => hca.not_le (le_trans (le_of_not_lt h2) (le_of_not_lt h1))

theorem keys_nodup_mem_unique {α : Type} {l : List (Nat × α)} {k : Nat} {a b : α}
    (hnd : (l.map Prod.fst).Nodup) (ha : (k, a) ∈ l) (hb : (k, b) ∈ l) : a = b := by
  have h1 := mem_alookup hnd ha
  have h2 := mem_alookup hnd hb
  rw [h1] at h2
  exact Option.some_inj.mp h2

theorem foldl_closestAcc_spec (v : Vec) :
    ∀ (l : List (Nat × Vec)) (b : Nat) (d : ℚ),
      ∃ b' d', l.foldl (closestAcc v) (some (b, d)) = some (b', d') ∧
        ((b' = b ∧ d' = d) ∨ ∃ cent, (b', cent) ∈ l ∧ d' = calculateDistance v cent) ∧
        d' ≤ d ∧ ∀ p ∈ l, d' ≤ calculateDistance v p.2 := by
  intro l
  induction l with
  | nil =>
    intro b d
    exact ⟨b, d, rfl, Or.inl ⟨rfl, rfl⟩, le_refl _, by simp⟩
  | cons p rest ih =>
    intro b d
    by_cases hlt : calculateDistance v p.2 < d
    · obtain ⟨b', d', hfold, hmem, hle, hall⟩ := ih p.1 (calculateDistance v p.2)
      refine ⟨b', d', ?_, ?_, le_of_lt (lt_of_le_of_lt hle hlt), ?_⟩
      · rw [List.foldl_cons]
        rw [show closestAcc v (some (b, d)) p = some (p.1, calculateDistance v p.2) by
          unfold closestAcc; dsimp only; rw [if_pos hlt]]
        exact hfold
      · rcases hmem with ⟨hb, hd⟩ | ⟨cent, hc, hd⟩
        · exact Or.inr ⟨p.2, by rw [hb]; exact List.mem_cons_self _ _, hd⟩
        · exact Or.inr ⟨cent, List.mem_cons_of_mem _ hc, hd⟩
      · intro q hq
        rcases List.mem_cons.mp hq with rfl | hq
        · exact hle
        · exact hall q hq
    · obtain ⟨b', d', hfold, hmem, hle, hall⟩ := ih b d
      refine ⟨b', d', ?_, ?_, hle, ?_⟩
      · rw [List.foldl_cons]
        rw [show closestAcc v (some (b, d)) p = some (b, d) by
          unfold closestAcc; dsimp only; rw [if_neg hlt]]
        exact hfold
      · rcases hmem with h | ⟨cent, hc, hd⟩
        · exact Or.inl h
        · exact Or.inr ⟨cent, List.mem_cons_of_mem _ hc, hd⟩
      · intro q hq
        rcases List.mem_cons.mp hq with rfl | hq
        · exact le_trans hle (le_of_not_lt hlt)
        · exact hall q hq

theorem findClosestCentroid_spec (cents : List (Nat × Vec)) (v : Vec)
    (hne : cents ≠ []) :
    ∃ cv, (findClosestCentroid cents v, cv) ∈ cents ∧
      ∀ p ∈ cents, calculateDistance v cv ≤ calculateDistance v p.2 := by
  obtain ⟨p, rest, rfl⟩ := List.exists_cons_of_ne_nil hne
  obtain ⟨b', d', hfold, hmem, hle, hall⟩ := foldl_closestAcc_spec v rest p.1
    (calculateDistance v p.2)
  have hres : findClosestCentroid (p :: rest) v = b' := by
    unfold findClosestCentroid
    rw [List.foldl_cons]
    rw [show closestAcc v none p = some (p.1, calculateDistance v p.2) from rfl]
    rw [hfold]
    rfl
  rw [hres]
  rcases hmem with ⟨hb, hd⟩ | ⟨cent, hc, hd⟩
  · refine ⟨p.2, by rw [hb]; exact List.mem_cons_self _ _, ?_⟩
    intro q hq
    rcases List.mem_cons.mp hq with rfl | hq
    · rw [← hd]
    · rw [← hd]; exact hall q hq
  · refine ⟨cent, List.mem_cons_of_mem _ hc, ?_⟩
    intro q hq
    rcases List.mem_cons.mp hq with rfl | hq
    · rw [← hd]; exact hle
    · rw [← hd]; exact hall q hq

theorem sortCmp_take_cross {α : Type} (lt : α → α → Bool)
    (hasym : ∀ a b, lt a b = true → lt b a = false)
    (hneg : ∀ a b c, lt c b = false → lt b a = false → lt c a = false)
    (l : List α) (n : Nat) {x y : α}
    (hx : x ∈ (sortCmp lt l).take n) (hy : y ∈ (sortCmp lt l).drop n) :
    lt y x = false := by
  have hp := sortCmp_pairwise lt hasym hneg l
  rw [← List.take_append_drop n (sortCmp lt l)] at hp
  exact (List.pairwise_append.mp hp).2.2 x hx y hy

/-- C5 (amended): assignToCluster returns a cluster id whose centroid
achieves the minimum Euclidean distance, and findClosestClusters returns
min n |centroids| cluster ids in ascending distance order with no
excluded cluster closer than an included one; distance ties are NOT
broken by the smallest cluster id (see the counterexample), the first
centroid in map iteration order wins. -/
theorem C5_closest_clusters_amended (cents : List (Nat × Vec)) (v q : Vec) (n : Nat)
    (hne : cents ≠ []) (hnd : (cents.map Prod.fst).Nodup) :
    (∃ cv, (findClosestCentroid cents v, cv) ∈ cents ∧
      ∀ p ∈ cents, calculateDistance v cv ≤ calculateDistance v p.2) ∧
    (findClosestClusters cents q n).length = min n cents.length ∧
    (∀ c ∈ findClosestClusters cents q n, ∃ cv, (c, cv) ∈ cents) ∧
    List.Pairwise (fun c1 c2 => ∀ p1 ∈ cents, ∀ p2 ∈ cents,
      p1.1 = c1 → p2.1 = c2 → calculateDistance q p1.2 ≤ calculateDistance q p2.2)
      (findClosestClusters cents q n) ∧
    (∀ p1 ∈ cents, ∀ p2 ∈ cents, p1.1 ∈ findClosestClusters cents q n →
      p2.1 ∉ findClosestClusters cents q n →
      calculateDistance q p1.2 ≤ calculateDistance q p2.2) := by
  have hassign := findClosestCentroid_spec cents v hne
  set ds := cents.map (fun c => (c.1, calculateDistance q c.2)) with hds
  set S := sortCmp ltDistAsc ds with hS
  have hperm : List.Perm S ds := sortCmp_perm _ _
  have hr : findClosestClusters cents q n = (S.take n).map Prod.fst := rfl
  have hdskeys : ds.map Prod.fst = cents.map Prod.fst := by
    rw [hds, List.map_map]
    rfl
  have hdsnd : (ds.map Prod.fst).Nodup := by rw [hdskeys]; exact hnd
  have hmemds : ∀ x ∈ S.take n, x ∈ ds :=
    fun x hx => hperm.mem_iff.mp ((List.take_sublist n S).subset hx)
  refine ⟨hassign, ?_, ?_, ?_, ?_⟩
  · rw [hr, List.length_map, List.length_take, hperm.length_eq, hds, List.length_map]
  · intro c hc
    rw [hr] at hc
    obtain ⟨x, hx, rfl⟩ := List.mem_map.mp hc
    obtain ⟨p, hp, hpx⟩ := List.mem_map.mp (hmemds x hx)
    obtain ⟨a, b⟩ := p
    refine ⟨b, ?_⟩
    rw [← hpx]
    exact hp
  · rw [hr, List.pairwise_map]
    refine List.Pairwise.imp_of_mem ?_
      (List.Pairwise.sublist (List.take_sublist n S)
        (sortCmp_pairwise ltDistAsc ltDistAsc_asym ltDistAsc_negtrans ds))
    intro a b ha hb hR p1 hp1 p2 hp2 h1 h2
    have hm1 : (p1.1, calculateDistance q p1.2) ∈ ds := List.mem_map.mpr ⟨p1, hp1, rfl⟩
    have hm2 : (p2.1, calculateDistance q p2.2) ∈ ds := List.mem_map.mpr ⟨p2, hp2, rfl⟩
    rw [h1] at hm1
    rw [h2] at hm2
    have ha2 : a.2 = calculateDistance q p1.2 :=
      keys_nodup_mem_unique hdsnd (hmemds a ha) hm1
    have hb2 : b.2 = calculateDistance q p2.2 :=
      keys_nodup_mem_unique hdsnd (hmemds b hb) hm2
    rw [← ha2, ← hb2]
    unfold ltDistAsc at hR
    rw [decide_eq_false_iff_not] at hR
    exact le_of_not_lt hR
  · intro p1 hp1 p2 hp2 hin hout
    rw [hr] at hin hout
    obtain ⟨x1, hx1, hx1e⟩ := List.mem_map.mp hin
    have hm1 : (p1.1, calculateDistance q p1.2) ∈ ds := List.mem_map.mpr ⟨p1, hp1, rfl⟩
    have hm2 : (p2.1, calculateDistance q p2.2) ∈ ds := List.mem_map.mpr ⟨p2, hp2, rfl⟩
    rw [← hx1e] at hm1
    have hx12 : x1.2 = calculateDistance q p1.2 :=
      keys_nodup_mem_unique hdsnd (hmemds x1 hx1) hm1
    have hx2S : (p2.1, calculateDistance q p2.2) ∈ S := hperm.mem_iff.mpr hm2
    rw [← List.take_append_drop n S] at hx2S
    rcases List.mem_append.mp hx2S with hx2 | hx2
    · exact absurd (List.mem_map.mpr ⟨_, hx2, rfl⟩) hout
    · have hcross := sortCmp_take_cross ltDistAsc ltDistAsc_asym ltDistAsc_negtrans
        ds n hx1 hx2
      unfold ltDistAsc at hcross
      rw [decide_eq_false_iff_not] at hcross
      have := le_of_not_lt hcross
      rw [hx12] at this
      exact this

unseal Rat.mul Rat.inv Rat.add Rat.sub in
theorem C5_closest_witness :
    (∃ cv, (findClosestCentroid witC5cents [2], cv) ∈ witC5cents ∧
      ∀ p ∈ witC5cents, calculateDistance [2] cv ≤ calculateDistance [2] p.2) ∧
    (findClosestClusters witC5cents [2] 1).length = min 1 witC5cents.length ∧
    (∀ c ∈ findClosestClusters witC5cents [2] 1, ∃ cv, (c, cv) ∈ witC5cents) := by
  have h := C5_closest_clusters_amended witC5cents [2] [2] 1 (by decide) (by decide)
  exact ⟨h.1, h.2.1, h.2.2.1⟩

theorem ltSimDesc_asym : ∀ a b : Nat × ℚ, ltSimDesc a b = true → ltSimDesc b a = false := by
  intro a b h
  unfold ltSimDesc at *
  rw [decide_eq_true_iff] at h
  rw [decide_eq_false_iff_not]
  exact lt_asymm h

theorem ltSimDesc_negtrans : ∀ a b c : Nat × ℚ,
    ltSimDesc c b = false → ltSimDesc b a = false → ltSimDesc c a = false := by
  intro a b c h1 h2
  unfold ltSimDesc at *
  rw [decide_eq_false_iff_not] at h1 h2
  rw [decide_eq_false_iff_not]
  exact fun hca => hca.not_le (le_trans (le_of_not_lt h1) (le_of_not_lt h2))

/-- C4 (amended): for a query of the store dimension, findSimilarVectors
returns at most k candidate pairs, sorted by cosine similarity in
descending order, drawn from the candidate set, and no excluded
candidate beats an included one; equal similarities are NOT broken by
the smaller vector id (see the counterexample), the order of ties is the
map iteration order. -/
theorem C4_search_sorted_amended (s : StoreState) (q : Vec) (k : Nat)
    (hq : q.length = s.vector_dim) :
    (findSimilarVectors s q k).length = min k (simCandidates s q).length ∧
    List.Pairwise (fun a b : Nat × ℚ => b.2 ≤ a.2) (findSimilarVectors s q k) ∧
    (∀ p ∈ findSimilarVectors s q k, p ∈ simCandidates s q) ∧
    (∀ p ∈ simCandidates s q, p ∉ findSimilarVectors s q k →
      ∀ x ∈ findSimilarVectors s q k, p.2 ≤ x.2) := by
  have hr : findSimilarVectors s q k = (sortCmp ltSimDesc (simCandidates s q)).take k := by
    unfold findSimilarVectors
    rw [if_neg (by rw [hq]; exact fun hne => hne rfl)]
  set cs := simCandidates s q with hcs
  set S := sortCmp ltSimDesc cs with hS
  have hperm : List.Perm S cs := sortCmp_perm _ _
  refine ⟨?_, ?_, ?_, ?_⟩
  · rw [hr, List.length_take, hperm.length_eq]
  · rw [hr]
    refine List.Pairwise.imp ?_
      (List.Pairwise.sublist (List.take_sublist k S)
        (sortCmp_pairwise ltSimDesc ltSimDesc_asym ltSimDesc_negtrans cs))
    intro a b h
    unfold ltSimDesc at h
    rw [decide_eq_false_iff_not] at h
    exact le_of_not_lt h
  · intro p hp
    rw [hr] at hp
    exact hperm.mem_iff.mp ((List.take_sublist k S).subset hp)
  · intro p hp hnotin x hx
    rw [hr] at hnotin hx
    have hpS : p ∈ S := hperm.mem_iff.mpr hp
    rw [← List.take_append_drop k S] at hpS
    rcases List.mem_append.mp hpS with hpt | hpd
    · exact absurd hpt hnotin
    · have hcross := sortCmp_take_cross ltSimDesc ltSimDesc_asym ltSimDesc_negtrans
        cs k hx hpd
      unfold ltSimDesc at hcross
      rw [decide_eq_false_iff_not] at hcross
      exact le_of_not_lt hcross

unseal Rat.mul Rat.inv Rat.add Rat.sub in
theorem C4_search_witness :
    (findSimilarVectors cexC4store [1] 2).length = min 2 (simCandidates cexC4store [1]).length ∧
    List.Pairwise (fun a b : Nat × ℚ => b.2 ≤ a.2) (findSimilarVectors cexC4store [1] 2) ∧
    (∀ p ∈ findSimilarVectors cexC4store [1] 2, p ∈ simCandidates cexC4store [1]) := by
  have h := C4_search_sorted_amended cexC4store [1] 2 (by decide)
  exact ⟨h.1, h.2.1, h.2.2.1⟩

theorem foldl_inv {α β : Type} {P : β → Prop} (f : β → α → β) (l : List α)
    (hstep : ∀ b a, a ∈ l → P b → P (f b a)) : ∀ b, P b → P (l.foldl f b) := by
  induction l with
  | nil => intro b hb; exact hb
  | cons x xs ih =>
    intro b hb
    exact ih (fun b' a ha => hstep b' a (List.mem_cons_of_mem _ ha)) _
      (hstep b x (List.mem_cons_self _ _) hb)

theorem alookup_isSome_keys {α : Type} (k : Nat) (l : List (Nat × α)) :
    (alookup k l).isSome ↔ k ∈ l.map Prod.fst := by
  rw [alookup_isSome]
  constructor
  · rintro ⟨p, hp, rfl⟩
    exact List.mem_map.mpr ⟨p, hp, rfl⟩
  · intro h
    obtain ⟨p, hp, he⟩ := List.mem_map.mp h
    exact ⟨p, hp, he.symm⟩

theorem rebalanceStep_preserves (k st : KState) (p : Nat × Nat)
    (h : StratSync k st)
    (hid : (alookup p.1 st.vector_to_cluster).isSome)
    (hnc : (alookup p.2 st.cluster_info).isSome) :
    StratSync k (rebalanceStep st p) := by
  obtain ⟨hA, hB, hC, h7, hkeys, hnd, hvk⟩ := h
  obtain ⟨id, nc⟩ := p
  unfold rebalanceStep
  dsimp only
  split
  case isFalse => exact ⟨hA, hB, hC, h7, hkeys, hnd, hvk⟩
  case isTrue hne =>
    obtain ⟨oldc, holdc⟩ := Option.isSome_iff_exists.mp hid
    rw [show ((alookup id st.vector_to_cluster).getD 0) = oldc by rw [holdc]; rfl] at hne ⊢
    have hidold : id ∈ membersD st oldc := hA id oldc holdc
    have holdinfo : (alookup oldc st.cluster_info).isSome := h7 id oldc holdc
    obtain ⟨ciN, hciN⟩ := Option.isSome_iff_exists.mp hnc
    obtain ⟨ciO, hciO⟩ := Option.isSome_iff_exists.mp holdinfo
    have hnco : nc ≠ oldc := fun hnco => hne (by rw [hnco])
    have honc : oldc ≠ nc := fun x => hnco x.symm
    -- abbreviations for the three updated maps
    have M1 : membersD { st with
        cluster_members := almodify nc ∅ (insert id)
          (almodify oldc ∅ (fun m => m.erase id) st.cluster_members),
        cluster_info := almodify nc defaultCI
          (fun ci => { ci with vector_count := ci.vector_count + 1 })
          (almodify oldc defaultCI
            (fun ci => { ci with vector_count := ci.vector_count - 1 }) st.cluster_info),
        vector_to_cluster := alupdate id nc st.vector_to_cluster } nc =
        insert id (membersD st nc) := by
      unfold membersD
      dsimp only
      rw [alookup_almodify_self, alookup_almodify_ne hnco]
      rfl
    have M2 : membersD { st with
        cluster_members := almodify nc ∅ (insert id)
          (almodify oldc ∅ (fun m => m.erase id) st.cluster_members),
        cluster_info := almodify nc defaultCI
          (fun ci => { ci with vector_count := ci.vector_count + 1 })
          (almodify oldc defaultCI
            (fun ci => { ci with vector_count := ci.vector_count - 1 }) st.cluster_info),
        vector_to_cluster := alupdate id nc st.vector_to_cluster } oldc =
        (membersD st oldc).erase id := by
      unfold membersD
      dsimp only
      rw [alookup_almodify_ne honc, alookup_almodify_self]
      rfl
    have M3 : ∀ c, c ≠ nc → c ≠ oldc → membersD { st with
        cluster_members := almodify nc ∅ (insert id)
          (almodify oldc ∅ (fun m => m.erase id) st.cluster_members),
        cluster_info := almodify nc defaultCI
          (fun ci => { ci with vector_count := ci.vector_count + 1 })
          (almodify oldc defaultCI
            (fun ci => { ci with vector_count := ci.vector_count - 1 }) st.cluster_info),
        vector_to_cluster := alupdate id nc st.vector_to_cluster } c =
        membersD st c := by
      intro c hc1 hc2
      unfold membersD
      dsimp only
      rw [alookup_almodify_ne hc1, alookup_almodify_ne hc2]
    have hidnotnc : id ∉ membersD st nc := fun hmem => by
      have := hB nc id hmem
      rw [holdc] at this
      exact hnco (Option.some_inj.mp this).symm
    have hkeysI : (almodify nc defaultCI
        (fun ci => { ci with vector_count := ci.vector_count + 1 })
        (almodify oldc defaultCI
          (fun ci => { ci with vector_count := ci.vector_count - 1 })
          st.cluster_info)).map Prod.fst = st.cluster_info.map Prod.fst := by
      rw [almodify_keys _ _ (by rw [alookup_almodify_ne hnco]; exact hnc),
        almodify_keys _ _ holdinfo]
    refine ⟨?_, ?_, ?_, ?_, ?_, ?_, ?_⟩
    · intro j c hj
      by_cases hjid : j = id
      · subst hjid
        rw [alookup_alupdate_self] at hj
        rw [← Option.some_inj.mp hj, M1]
        exact Finset.mem_insert_self j _
      · rw [alookup_alupdate_ne hjid] at hj
        have hmem := hA j c hj
        by_cases hcnc : c = nc
        · subst hcnc
          rw [M1]
          exact Finset.mem_insert_of_mem hmem
        · by_cases hcold : c = oldc
          · subst hcold
            rw [M2]
            exact Finset.mem_erase.mpr ⟨hjid, hmem⟩
          · rw [M3 c hcnc hcold]
            exact hmem
    · intro c j hj
      by_cases hcnc : c = nc
      · subst hcnc
        rw [M1] at hj
        rcases Finset.mem_insert.mp hj with rfl | hj
        · apply alookup_alupdate_self
        · have := hB c j hj
          have hjid : j ≠ id := fun hjid => by
            subst hjid
            rw [holdc] at this
            exact hnco (Option.some_inj.mp this).symm
          rw [alookup_alupdate_ne hjid]
          exact this
      · by_cases hcold : c = oldc
        · subst hcold
          rw [M2] at hj
          obtain ⟨hjid, hj⟩ := Finset.mem_erase.mp hj
          rw [alookup_alupdate_ne hjid]
          exact hB c j hj
        · rw [M3 c hcnc hcold] at hj
          have := hB c j hj
          have hjid : j ≠ id := fun hjid => by
            subst hjid
            rw [holdc] at this
            exact hcold (Option.some_inj.mp this).symm
          rw [alookup_alupdate_ne hjid]
          exact this
    · intro c ci hci
      by_cases hcnc : c = nc
      · subst hcnc
        dsimp only at hci
        rw [alookup_almodify_self, alookup_almodify_ne hnco, hciN] at hci
        rw [← Option.some_inj.mp hci, M1]
        rw [Finset.card_insert_of_not_mem hidnotnc, hC c ciN hciN]
        rfl
      · by_cases hcold : c = oldc
        · subst hcold
          dsimp only at hci
          rw [alookup_almodify_ne honc, alookup_almodify_self, hciO] at hci
          rw [← Option.some_inj.mp hci, M2]
          rw [Finset.card_erase_of_mem hidold, hC c ciO hciO]
          rfl
        · dsimp only at hci
          rw [alookup_almodify_ne hcnc, alookup_almodify_ne hcold] at hci
          rw [M3 c hcnc hcold]
          exact hC c ci hci
    · intro j c hj
      dsimp only
      by_cases hjid : j = id
      · subst hjid
        rw [alookup_alupdate_self] at hj
        rw [← Option.some_inj.mp hj]
        rw [alookup_isSome_keys, hkeysI, ← alookup_isSome_keys]
        exact hnc
      · rw [alookup_alupdate_ne hjid] at hj
        rw [alookup_isSome_keys, hkeysI, ← alookup_isSome_keys]
        exact h7 j c hj
    · dsimp only
      rw [hkeysI]
      exact hkeys
    · dsimp only
      rw [alupdate_keys nc hid]
      exact hnd
    · intro j
      dsimp only
      by_cases hjid : j = id
      · subst hjid
        rw [alookup_alupdate_self]
        rw [← hvk j]
        simp [hid]
      · rw [alookup_alupdate_ne hjid]
        exact hvk j

theorem updateCentroid_sync (k st : KState) (cid : Nat) (h : StratSync k st) :
    StratSync k (updateCentroid st cid) := by
  obtain ⟨hA, hB, hC, h7, hkeys, hnd, hvk⟩ := h
  refine ⟨?_, ?_, ?_, ?_, ?_, ?_, ?_⟩
  · intro j c hj
    rw [updateCentroid_v2c] at hj
    rw [updateCentroid_membersD]
    exact hA j c hj
  · intro c j hj
    rw [updateCentroid_membersD] at hj
    rw [updateCentroid_v2c]
    exact hB c j hj
  · intro c ci hci
    have hc := updateCentroid_info_count st cid c
    rw [hci] at hc
    cases hst : alookup c st.cluster_info with
    | none => rw [hst] at hc; exact absurd hc (by simp)
    | some ci0 =>
      rw [hst] at hc
      have hcc : ci.vector_count = ci0.vector_count := by simpa using hc
      rw [updateCentroid_membersD, hC c ci0 hst, hcc]
  · intro j c hj
    rw [updateCentroid_v2c] at hj
    rw [alookup_isSome_keys, updateCentroid_info_keys, ← alookup_isSome_keys]
    exact h7 j c hj
  · rw [updateCentroid_info_keys]
    exact hkeys
  · rw [updateCentroid_v2c]
    exact hnd
  · intro j
    rw [updateCentroid_v2c]
    exact hvk j

theorem rebalance_sync (k : KState) (h : WFK k) : StratSync k (rebalance k).2 := by
  obtain ⟨hnd1, hnd2, hnd3, hnd4, hnd5, hcne, h7k, h8, h9, h10, h11, h12, h13, h14⟩ := h
  have base : StratSync k k := by
    refine ⟨?_, ?_, ?_, ?_, rfl, hnd2, fun j => Iff.rfl⟩
    · intro j c hj
      exact h12 (j, c) (alookup_mem hj)
    · intro c j hj
      unfold membersD at hj
      cases hm : alookup c k.cluster_members with
      | none => rw [hm] at hj; simp at hj
      | some m =>
        rw [hm] at hj
        exact h13 (c, m) (alookup_mem hm) j hj
    · intro c ci hci
      exact h14 (c, ci) (alookup_mem hci)
    · intro j c hj
      exact h9 (j, c) (alookup_mem hj)
  unfold rebalance
  dsimp only
  split
  case isFalse => exact base
  case isTrue =>
    dsimp only
    refine foldl_inv updateCentroid _ (fun st c _ hst => updateCentroid_sync k st c hst) _
      (foldl_inv rebalanceStep _ ?_ k base)
    intro st p hp hst
    obtain ⟨q, hq, rfl⟩ := List.mem_map.mp hp
    refine rebalanceStep_preserves k st _ hst ?_ ?_
    · exact (hst.2.2.2.2.2.2 q.1).mpr (h7k q hq)
    · obtain ⟨cv, hmem, -⟩ := findClosestCentroid_spec k.centroids q.2 hcne
      have hs := h10 _ hmem
      rw [alookup_isSome_keys] at hs ⊢
      rw [hst.2.2.2.2.1]
      exact hs

theorem alignUp_ge (c b : Nat) (hb : 0 < b) : c ≤ alignUp c b := by
  unfold alignUp
  have h1 := Nat.div_add_mod (c + b - 1) b
  have h2 := Nat.mod_lt (c + b - 1) hb
  rw [Nat.mul_comm b ((c + b - 1) / b)] at h1
  obtain ⟨t, ht⟩ : ∃ t, (c + b - 1) / b * b = t := ⟨_, rfl⟩
  obtain ⟨r, hr⟩ : ∃ r, (c + b - 1) % b = r := ⟨_, rfl⟩
  rw [ht, hr] at h1
  rw [hr] at h2
  rw [ht]
  omega

theorem alignUp_mod (c b : Nat) : alignUp c b % b = 0 := Nat.mul_mod_left _ _

theorem maintStep_preserves (s1 st : StoreState) (p : Nat × VEntry)
    (hb : 0 < s1.block_size) (hp : p ∈ s1.vector_map) (hI3 : Inv3 s1)
    (h : MaintSync s1 st) : MaintSync s1 (maintStep st p) := by
  obtain ⟨hstrat, hdim, hblock, hdoff, hnext, hkeys, hcur, h3, h4⟩ := h
  unfold maintStep allocateVectorSpace writeVectorAt
  dsimp only
  split
  case h_1 => exact ⟨hstrat, hdim, hblock, hdoff, hnext, hkeys, hcur, h3, h4⟩
  case h_2 v hv =>
    split
    case isFalse => exact ⟨hstrat, hdim, hblock, hdoff, hnext, hkeys, hcur, h3, h4⟩
    case isTrue hne =>
      have hsome : (alookup p.1 st.vector_map).isSome := by
        rw [alookup_isSome_keys, hkeys]
        exact List.mem_map.mpr ⟨p, hp, rfl⟩
      have halign : st.alloc_cursor ≤ alignUp st.alloc_cursor st.block_size :=
        alignUp_ge _ _ (by rw [hblock]; exact hb)
      refine ⟨hstrat, hdim, hblock, hdoff, hnext, ?_, ?_, ?_, ?_⟩
      · dsimp only
        rw [alupdate_keys _ hsome]
        exact hkeys
      · dsimp only
        omega
      · intro q hq
        dsimp only at hq ⊢
        rcases mem_alupdate hq with rfl | hq
        · dsimp only
          rw [hnext]
          exact hI3 p hp
        · exact h3 q hq
      · intro q hq
        dsimp only at hq ⊢
        rcases mem_alupdate hq with rfl | hq
        · refine ⟨?_, ?_, ?_⟩
          · dsimp only
            omega
          · dsimp only
            exact alignUp_mod _ _
          · dsimp only
            exact le_max_right _ _
        · obtain ⟨hq1, hq2, hq3⟩ := h4 q hq
          exact ⟨hq1, hq2, le_trans hq3 (le_max_left _ _)⟩

/-- C3: performMaintenance preserves invariants 2, 3 and 4 on every
well-formed store, whether or not it reports success.  (Invariant 1 is
not preserved; see the counterexample.) -/
theorem C3_maintenance_invariants_amended (s : StoreState) (h : WFStore s) :
    Inv2 (performMaintenance s).2 ∧ Inv3 (performMaintenance s).2 ∧
      Inv4 (performMaintenance s).2 := by
  obtain ⟨hwfk, hI1, hI2, hI3, hI4, hcur, hb, hnd⟩ := h
  unfold performMaintenance
  dsimp only
  split
  case isTrue hreb =>
    rw [pairIf_snd]
    have hsync : MaintSync { s with strat := (rebalance s.strat).2 }
        (List.foldl maintStep { s with strat := (rebalance s.strat).2 }
          ({ s with strat := (rebalance s.strat).2 } : StoreState).vector_map) := by
      refine foldl_inv maintStep _ ?_ _ ⟨rfl, rfl, rfl, rfl, rfl, rfl, hcur, hI3, hI4⟩
      intro st q hq hst
      exact maintStep_preserves _ st q hb hq hI3 hst
    refine ⟨?_, hsync.2.2.2.2.2.2.2.1, hsync.2.2.2.2.2.2.2.2⟩
    have hS : StratSync s.strat (rebalance s.strat).2 := rebalance_sync s.strat hwfk
    intro p hp
    obtain ⟨c, ci⟩ := p
    rw [hsync.1] at hp ⊢
    dsimp only at hp ⊢
    have hndk : (((rebalance s.strat).2.cluster_info).map Prod.fst).Nodup := by
      rw [hS.2.2.2.2.1]
      exact hwfk.2.2.1
    exact hS.2.2.1 c ci (mem_alookup hndk hp)
  case isFalse =>
    rw [pairIf_snd]
    exact ⟨hI2, hI3, hI4⟩

unseal Rat.mul Rat.inv Rat.add Rat.sub in
/-- Witness for C3_maintenance_invariants_amended at cexC3store. -/
theorem C3_maintenance_witness :
    WFStore cexC3store ∧
      (Inv2 (performMaintenance cexC3store).2 ∧ Inv3 (performMaintenance cexC3store).2 ∧
        Inv4 (performMaintenance cexC3store).2) :=
  ⟨by decide, C3_maintenance_invariants_amended cexC3store (by decide)⟩

theorem parseF32s_append (v : Vec) (rest : List STok) :
    parseF32s v.length (v.map STok.f32 ++ rest) = some (v, rest) := by
  induction v with
  | nil => rfl
  | cons x xs ih => simp [parseF32s, ih]

theorem parseI16s_append (zs : List Int) (rest : List STok) :
    parseI16s zs.length (zs.map STok.i16 ++ rest) = some (zs, rest) := by
  induction zs with
  | nil => rfl
  | cons x xs ih => simp [parseI16s, ih]

theorem parseVecEntries_ser (dim : Nat) (es : List (Nat × Nat × Vec)) (rest : List STok)
    (h : ∀ e ∈ es, e.2.2.length = dim) :
    parseVecEntries dim es.length
      ((es.map (fun e => STok.u32 e.1 :: STok.u32 e.2.1 :: e.2.2.map STok.f32)).flatten
        ++ rest) = some (es, rest) := by
  induction es with
  | nil => rfl
  | cons e es' ih =>
    obtain ⟨id, cid, v⟩ := e
    have hv : v.length = dim := h (id, cid, v) (List.mem_cons_self _ _)
    simp only [List.map_cons, List.flatten_cons, List.cons_append, List.append_assoc,
      List.length_cons]
    unfold parseVecEntries
    rw [← hv, parseF32s_append]
    dsimp only
    rw [hv, ih (fun e he => h e (List.mem_cons_of_mem _ he))]

theorem tokBytes_shift (l : List Nat) : ∀ a : Nat, l.foldl (· + ·) a = a + l.foldl (· + ·) 0 := by
  induction l with
  | nil => intro a; simp
  | cons x xs ih =>
    intro a
    simp only [List.foldl_cons]
    rw [ih (a + x), ih (0 + x)]
    omega

theorem tokBytes_cons (t : STok) (l : List STok) :
    tokBytes (t :: l) = t.byteLen + tokBytes l := by
  unfold tokBytes
  simp only [List.map_cons, List.foldl_cons]
  rw [tokBytes_shift]
  omega

theorem tokBytes_i16map (v : Vec) (g : ℚ → Int) :
    tokBytes (v.map (fun c => STok.i16 (g c))) = 2 * v.length := by
  induction v with
  | nil => rfl
  | cons x xs ih =>
    simp only [List.map_cons, List.length_cons]
    rw [tokBytes_cons, ih]
    simp [STok.byteLen]
    omega

theorem tokBytes_serClusterInfo (ci : ClusterInfo) :
    tokBytes (serClusterInfo ci) = 28 + 2 * ci.centroid.length := by
  unfold serClusterInfo
  dsimp only
  simp only [List.cons_append, List.nil_append]
  rw [tokBytes_cons, tokBytes_cons, tokBytes_cons, tokBytes_cons, tokBytes_cons, tokBytes_cons,
    tokBytes_i16map]
  simp only [STok.byteLen]
  omega

theorem dequantCentroid_length (v : Vec) : (dequantCentroid v).length = v.length := by
  unfold dequantCentroid
  exact List.length_map _ _

theorem parseClusterInfo_ser (ci : ClusterInfo) (rest : List STok) :
    parseClusterInfo (serClusterInfo ci ++ rest) = some (deqCI ci, rest) := by
  unfold serClusterInfo
  dsimp only
  simp only [List.cons_append, List.nil_append]
  unfold parseClusterInfo
  have hmap : ci.centroid.map (fun c => STok.i16 (roundAway (c / quantScale ci.centroid))) =
      (ci.centroid.map (fun c => roundAway (c / quantScale ci.centroid))).map STok.i16 := by
    rw [List.map_map]
    rfl
  rw [hmap]
  rw [show ci.centroid.length =
    (ci.centroid.map (fun c => roundAway (c / quantScale ci.centroid))).length from
    (List.length_map _ _).symm]
  dsimp only
  rw [parseI16s_append]
  dsimp only
  unfold deqCI dequantCentroid
  dsimp only
  rw [List.map_map]
  rfl

theorem parseClusters_ser (cis : List (Nat × ClusterInfo)) (rest : List STok) :
    parseClusters cis.length
      ((cis.map (fun p => STok.u32 p.1 :: STok.u32 (tokBytes (serClusterInfo p.2))
          :: serClusterInfo p.2)).flatten ++ rest) =
      some (cis.map (fun p => (p.1, deqCI p.2)), rest) := by
  induction cis with
  | nil => rfl
  | cons p cis' ih =>
    simp only [List.map_cons, List.flatten_cons, List.cons_append, List.append_assoc,
      List.length_cons]
    unfold parseClusters
    rw [parseClusterInfo_ser]
    dsimp only
    rw [if_pos (by
      rw [tokBytes_serClusterInfo]
      unfold deqCI
      dsimp only
      rw [dequantCentroid_length])]
    rw [ih]

theorem deserializeK_serializeK (k : KState)
    (h11 : ∀ p ∈ k.vectors, p.2.length = k.vector_dim) :
    deserializeK (serializeK k) = some (roundState k) := by
  have hser : serializeK k = STok.u32 k.vector_dim :: STok.u32 k.max_clusters ::
      STok.u32 (roundEntries k).length ::
      (((roundEntries k).map
          (fun e => STok.u32 e.1 :: STok.u32 e.2.1 :: e.2.2.map STok.f32)).flatten ++
        (STok.u32 k.cluster_info.length ::
          ((k.cluster_info.map (fun (p : Nat × ClusterInfo) =>
            STok.u32 p.1 :: STok.u32 (tokBytes (serClusterInfo p.2))
              :: serClusterInfo p.2)).flatten ++ []))) := by
    unfold serializeK roundEntries
    simp only [List.map_map, List.length_map, List.cons_append, List.nil_append,
      List.append_nil, List.append_assoc]
    rfl
  rw [hser]
  unfold deserializeK
  dsimp only
  rw [parseVecEntries_ser k.vector_dim (roundEntries k) _
    (by
      intro e he
      unfold roundEntries at he
      obtain ⟨p, hp, rfl⟩ := List.mem_map.mp he
      exact h11 p hp)]
  dsimp only
  rw [parseClusters_ser]
  rfl

theorem buildStep_vectors (dim : Nat) (st : KState) (e : Nat × Nat × Vec) :
    (buildStep dim st e).vectors = alupdate e.1 e.2.2 st.vectors := by
  unfold buildStep
  dsimp only
  split <;> rfl

theorem buildStep_v2c (dim : Nat) (st : KState) (e : Nat × Nat × Vec) :
    (buildStep dim st e).vector_to_cluster = alupdate e.1 e.2.1 st.vector_to_cluster := by
  unfold buildStep
  dsimp only
  split <;> rfl

theorem buildStep_cluster_info (dim : Nat) (st : KState) (e : Nat × Nat × Vec) :
    (buildStep dim st e).cluster_info = st.cluster_info := by
  unfold buildStep
  dsimp only
  split <;> rfl

theorem buildStep_membersD (dim : Nat) (st : KState) (e : Nat × Nat × Vec) (c : Nat) :
    membersD (buildStep dim st e) c =
      if c = e.2.1 then insert e.1 (membersD st c) else membersD st c := by
  unfold buildStep membersD
  dsimp only
  split
  case isTrue hs =>
    by_cases hc : c = e.2.1
    · subst hc
      rw [if_pos rfl, alookup_almodify_self]
      rfl
    · rw [if_neg hc, alookup_almodify_ne hc]
  case isFalse hs =>
    by_cases hc : c = e.2.1
    · subst hc
      rw [if_pos rfl, alookup_almodify_self, alookup_alupdate_self]
      rw [Option.not_isSome_iff_eq_none.mp hs]
      rfl
    · rw [if_neg hc, alookup_almodify_ne hc, alookup_alupdate_ne hc]

theorem build_vectors (dim : Nat) :
    ∀ (es : List (Nat × Nat × Vec)) (s : KState), (es.map (fun e => e.1)).Nodup →
      ∀ j, alookup j (buildFromVecEntries dim es s).vectors =
        (alookup j (es.map (fun e => (e.1, e.2.2)))).or (alookup j s.vectors) := by
  intro es
  induction es with
  | nil => intro s _ j; simp [buildFromVecEntries, alookup]
  | cons e es' ih =>
    intro s hnd j
    simp only [List.map_cons, List.nodup_cons] at hnd
    have hstep : buildFromVecEntries dim (e :: es') s =
        buildFromVecEntries dim es' (buildStep dim s e) := rfl
    rw [hstep, ih _ hnd.2 j]
    simp only [List.map_cons]
    by_cases hj : j = e.1
    · subst hj
      have hnone : alookup e.1 (es'.map (fun q => (q.1, q.2.2))) = none := by
        rw [alookup_eq_none]
        intro p hp
        obtain ⟨q, hq, rfl⟩ := List.mem_map.mp hp
        intro hc
        exact hnd.1 (by rw [hc]; exact List.mem_map.mpr ⟨q, hq, rfl⟩)
      rw [hnone, buildStep_vectors, alookup_alupdate_self]
      simp [alookup]
    · rw [show alookup j ((e.1, e.2.2) :: es'.map (fun e => (e.1, e.2.2))) =
          alookup j (es'.map (fun e => (e.1, e.2.2))) by simp [alookup, hj]]
      rw [buildStep_vectors, alookup_alupdate_ne hj]

theorem build_v2c (dim : Nat) :
    ∀ (es : List (Nat × Nat × Vec)) (s : KState), (es.map (fun e => e.1)).Nodup →
      ∀ j, alookup j (buildFromVecEntries dim es s).vector_to_cluster =
        (alookup j (es.map (fun e => (e.1, e.2.1)))).or (alookup j s.vector_to_cluster) := by
  intro es
  induction es with
  | nil => intro s _ j; simp [buildFromVecEntries, alookup]
  | cons e es' ih =>
    intro s hnd j
    simp only [List.map_cons, List.nodup_cons] at hnd
    have hstep : buildFromVecEntries dim (e :: es') s =
        buildFromVecEntries dim es' (buildStep dim s e) := rfl
    rw [hstep, ih _ hnd.2 j]
    simp only [List.map_cons]
    by_cases hj : j = e.1
    · subst hj
      have hnone : alookup e.1 (es'.map (fun q => (q.1, q.2.1))) = none := by
        rw [alookup_eq_none]
        intro p hp
        obtain ⟨q, hq, rfl⟩ := List.mem_map.mp hp
        intro hc
        exact hnd.1 (by rw [hc]; exact List.mem_map.mpr ⟨q, hq, rfl⟩)
      rw [hnone, buildStep_v2c, alookup_alupdate_self]
      simp [alookup]
    · rw [show alookup j ((e.1, e.2.1) :: es'.map (fun e => (e.1, e.2.1))) =
          alookup j (es'.map (fun e => (e.1, e.2.1))) by simp [alookup, hj]]
      rw [buildStep_v2c, alookup_alupdate_ne hj]

theorem build_cluster_info (dim : Nat) :
    ∀ (es : List (Nat × Nat × Vec)) (s : KState),
      (buildFromVecEntries dim es s).cluster_info = s.cluster_info := by
  intro es
  induction es with
  | nil => intro s; rfl
  | cons e es' ih =>
    intro s
    have hstep : buildFromVecEntries dim (e :: es') s =
        buildFromVecEntries dim es' (buildStep dim s e) := rfl
    rw [hstep, ih, buildStep_cluster_info]

theorem build_membersD (dim : Nat) :
    ∀ (es : List (Nat × Nat × Vec)) (s : KState) (c j : Nat),
      (j ∈ membersD (buildFromVecEntries dim es s) c ↔
        (∃ e ∈ es, e.1 = j ∧ e.2.1 = c) ∨ j ∈ membersD s c) := by
  intro es
  induction es with
  | nil => intro s c j; simp [buildFromVecEntries]
  | cons e es' ih =>
    intro s c j
    have hstep : buildFromVecEntries dim (e :: es') s =
        buildFromVecEntries dim es' (buildStep dim s e) := rfl
    rw [hstep, ih]
    rw [buildStep_membersD]
    by_cases hc : c = e.2.1
    · rw [if_pos hc]
      simp only [List.mem_cons, Finset.mem_insert]
      constructor
      · rintro (⟨e', he', h1, h2⟩ | rfl | hm)
        · exact Or.inl ⟨e', Or.inr he', h1, h2⟩
        · exact Or.inl ⟨e, Or.inl rfl, rfl, hc.symm⟩
        · exact Or.inr hm
      · rintro (⟨e', he' | he', h1, h2⟩ | hm)
        · subst he'
          exact Or.inr (Or.inl h1.symm)
        · exact Or.inl ⟨e', he', h1, h2⟩
        · exact Or.inr (Or.inr hm)
    · rw [if_neg hc]
      simp only [List.mem_cons]
      constructor
      · rintro (⟨e', he', h1, h2⟩ | hm)
        · exact Or.inl ⟨e', Or.inr he', h1, h2⟩
        · exact Or.inr hm
      · rintro (⟨e', he' | he', h1, h2⟩ | hm)
        · subst he'
          exact absurd h2.symm hc
        · exact Or.inl ⟨e', he', h1, h2⟩
        · exact Or.inr hm

theorem foldl_updateCentroid_vectors :
    ∀ (keys : List Nat) (s : KState), (keys.foldl updateCentroid s).vectors = s.vectors := by
  intro keys
  induction keys with
  | nil => intro s; rfl
  | cons x xs ih =>
    intro s
    rw [List.foldl_cons, ih, updateCentroid_vectors]

theorem foldl_updateCentroid_v2c :
    ∀ (keys : List Nat) (s : KState),
      (keys.foldl updateCentroid s).vector_to_cluster = s.vector_to_cluster := by
  intro keys
  induction keys with
  | nil => intro s; rfl
  | cons x xs ih =>
    intro s
    rw [List.foldl_cons, ih, updateCentroid_v2c]

theorem foldl_updateCentroid_dim :
    ∀ (keys : List Nat) (s : KState),
      (keys.foldl updateCentroid s).vector_dim = s.vector_dim := by
  intro keys
  induction keys with
  | nil => intro s; rfl
  | cons x xs ih =>
    intro s
    rw [List.foldl_cons, ih, updateCentroid_vector_dim]

theorem foldl_updateCentroid_membersD :
    ∀ (keys : List Nat) (s : KState) (c : Nat),
      membersD (keys.foldl updateCentroid s) c = membersD s c := by
  intro keys
  induction keys with
  | nil => intro s c; rfl
  | cons x xs ih =>
    intro s c
    rw [List.foldl_cons, ih, updateCentroid_membersD]

theorem foldl_updateCentroid_info_of_ne :
    ∀ (keys : List Nat) (s : KState) (c : Nat), c ∉ keys →
      alookup c (keys.foldl updateCentroid s).cluster_info = alookup c s.cluster_info := by
  intro keys
  induction keys with
  | nil => intro s c _; rfl
  | cons x xs ih =>
    intro s c hc
    rw [List.foldl_cons, ih _ _ (fun h => hc (List.mem_cons_of_mem _ h)),
      updateCentroid_info_ne _ _ _ (fun h => hc (by rw [h]; exact List.mem_cons_self _ _))]

theorem foldl_updateCentroid_info_of_empty :
    ∀ (keys : List Nat) (s : KState) (c : Nat), membersD s c = ∅ →
      alookup c (keys.foldl updateCentroid s).cluster_info = alookup c s.cluster_info := by
  intro keys
  induction keys with
  | nil => intro s c _; rfl
  | cons x xs ih =>
    intro s c hm
    rw [List.foldl_cons, ih _ _ (by rw [updateCentroid_membersD]; exact hm)]
    by_cases hx : c = x
    · subst hx
      rw [updateCentroid_info_empty _ _ hm]
    · exact updateCentroid_info_ne _ _ _ hx

theorem alookup_map_snd {α β : Type} (g : α → β) :
    ∀ (l : List (Nat × α)) (c : Nat),
      alookup c (l.map (fun p => (p.1, g p.2))) = (alookup c l).map g := by
  intro l
  induction l with
  | nil => intro c; rfl
  | cons p rest ih =>
    intro c
    obtain ⟨a, b⟩ := p
    by_cases hc : c = a <;> simp [alookup, hc, ih]

theorem alupdate_keys_of_absent {α : Type} (k : Nat) (v : α) :
    ∀ (l : List (Nat × α)), alookup k l = none →
      (alupdate k v l).map Prod.fst = l.map Prod.fst ++ [k] := by
  intro l
  induction l with
  | nil => intro _; rfl
  | cons p rest ih =>
    intro h
    obtain ⟨a, b⟩ := p
    by_cases hk : k = a
    · subst hk
      simp [alookup] at h
    · simp only [alookup, if_neg hk] at h
      simp [alupdate, if_neg hk, ih h]

theorem foldl_alupdate_lookup {α : Type} :
    ∀ (cis : List (Nat × α)) (l0 : List (Nat × α)) (c : Nat), (cis.map Prod.fst).Nodup →
      alookup c (cis.foldl (fun l (p : Nat × α) => alupdate p.1 p.2 l) l0) =
        (alookup c cis).or (alookup c l0) := by
  intro cis
  induction cis with
  | nil => intro l0 c _; simp [alookup]
  | cons p rest ih =>
    intro l0 c hnd
    simp only [List.map_cons, List.nodup_cons] at hnd
    rw [List.foldl_cons, ih _ _ hnd.2]
    obtain ⟨a, b⟩ := p
    by_cases hc : c = a
    · subst hc
      have hnone : alookup c rest = none := by
        rw [alookup_eq_none]
        intro q hq hcq
        exact hnd.1 (by rw [hcq]; exact List.mem_map.mpr ⟨q, hq, rfl⟩)
      rw [hnone, alookup_alupdate_self]
      simp [alookup]
    · rw [alookup_alupdate_ne hc]
      simp [alookup, hc]

theorem foldl_alupdate_keys {α : Type} :
    ∀ (cis : List (Nat × α)) (l0 : List (Nat × α)), (cis.map Prod.fst).Nodup →
      (∀ p ∈ cis, p.1 ∉ l0.map Prod.fst) →
      (cis.foldl (fun l (p : Nat × α) => alupdate p.1 p.2 l) l0).map Prod.fst =
        l0.map Prod.fst ++ cis.map Prod.fst := by
  intro cis
  induction cis with
  | nil => intro l0 _ _; simp
  | cons p rest ih =>
    intro l0 hnd habs
    simp only [List.map_cons, List.nodup_cons] at hnd
    rw [List.foldl_cons]
    have hup : (alupdate p.1 p.2 l0).map Prod.fst = l0.map Prod.fst ++ [p.1] :=
      alupdate_keys_of_absent _ _ _ (by
        rw [alookup_eq_none]
        intro q hq hcq
        exact habs p (List.mem_cons_self _ _) (by rw [hcq]; exact List.mem_map.mpr ⟨q, hq, rfl⟩))
    rw [ih _ hnd.2 (by
      intro q hq
      rw [hup]
      intro hmem
      rcases List.mem_append.mp hmem with hmem | hmem
      · exact habs q (List.mem_cons_of_mem _ hq) hmem
      · exact hnd.1 (by rw [← List.mem_singleton.mp hmem]; exact List.mem_map.mpr ⟨q, hq, rfl⟩)), hup]
    simp

theorem maxAbs_fold_le_self : ∀ (l : Vec) (a : ℚ), a ≤ l.foldl (fun m x => max m |x|) a := by
  intro l
  induction l with
  | nil => intro a; exact le_refl a
  | cons y ys ih =>
    intro a
    rw [List.foldl_cons]
    exact le_trans (le_max_left a |y|) (ih _)

theorem maxAbs_fold_mem : ∀ (l : Vec) (a : ℚ) (x : ℚ), x ∈ l →
    |x| ≤ l.foldl (fun m y => max m |y|) a := by
  intro l
  induction l with
  | nil => intro a x hx; simp at hx
  | cons y ys ih =>
    intro a x hx
    rw [List.foldl_cons]
    rcases List.mem_cons.mp hx with rfl | hx
    · exact le_trans (le_max_right a |x|) (maxAbs_fold_le_self _ _)
    · exact ih _ x hx

theorem maxAbs_le (v : Vec) (x : ℚ) (hx : x ∈ v) : |x| ≤ maxAbs v :=
  maxAbs_fold_mem v 0 x hx

theorem maxAbs_nonneg (v : Vec) : 0 ≤ maxAbs v := maxAbs_fold_le_self v 0

theorem roundAway_err (x : ℚ) : |(roundAway x : ℚ) - x| ≤ 1 / 2 := by
  unfold roundAway
  split
  case isTrue h =>
    have h1 : ((⌊x + 1 / 2⌋ : ℤ) : ℚ) ≤ x + 1 / 2 := Int.floor_le _
    have h2 : x + 1 / 2 < (⌊x + 1 / 2⌋ : ℤ) + 1 := Int.lt_floor_add_one _
    rw [abs_le]
    constructor <;> push_cast at h1 h2 ⊢ <;> linarith
  case isFalse h =>
    have h1 : ((⌊-x + 1 / 2⌋ : ℤ) : ℚ) ≤ -x + 1 / 2 := Int.floor_le _
    have h2 : -x + 1 / 2 < (⌊-x + 1 / 2⌋ : ℤ) + 1 := Int.lt_floor_add_one _
    rw [abs_le]
    constructor <;> push_cast at h1 h2 ⊢ <;> linarith

theorem roundAway_zero_of_small (x : ℚ) (h : |x| < 1 / 2) : roundAway x = 0 := by
  unfold roundAway
  rw [abs_lt] at h
  split
  case isTrue hx =>
    rw [Int.floor_eq_zero_iff]
    constructor <;> simp <;> linarith
  case isFalse hx =>
    rw [Int.floor_eq_zero_iff.mpr (by constructor <;> simp <;> linarith)]
    rfl

theorem dequant_err (v : Vec) (i : Nat) (hi : i < v.length) :
    |(dequantCentroid v).getD i 0 - v.getD i 0| ≤ quantScale v := by
  have hlen : i < (dequantCentroid v).length := by rw [dequantCentroid_length]; exact hi
  rw [List.getD_eq_getElem _ _ hlen, List.getD_eq_getElem _ _ hi]
  unfold dequantCentroid
  dsimp only
  rw [List.getElem_map]
  have hmem : v[i] ∈ v := List.getElem_mem hi
  have habs : |v[i]| ≤ maxAbs v := maxAbs_le v _ hmem
  unfold quantScale
  dsimp only
  split
  case isTrue hm =>
    rw [div_one, mul_one]
    rw [roundAway_zero_of_small _ (lt_of_le_of_lt habs (lt_trans hm (by norm_num)))]
    rw [show ((0 : ℤ) : ℚ) = 0 from rfl, zero_sub, abs_neg]
    exact le_trans habs (le_trans (le_of_lt hm) (by norm_num))
  case isFalse hm =>
    have hsc : 0 < maxAbs v / 32767 := by
      have := maxAbs_nonneg v
      have hge : (1 : ℚ) / 10000000000 ≤ maxAbs v := le_of_not_lt hm
      positivity
    have hkey : (roundAway (v[i] / (maxAbs v / 32767)) : ℚ) * (maxAbs v / 32767) - v[i] =
        ((roundAway (v[i] / (maxAbs v / 32767)) : ℚ) - v[i] / (maxAbs v / 32767)) *
          (maxAbs v / 32767) := by
      have hne : maxAbs v ≠ 0 := by
        intro h0
        rw [h0] at hm
        exact hm (by norm_num)
      field_simp
      ring
    rw [hkey, abs_mul, abs_of_pos hsc]
    have herr := roundAway_err (v[i] / (maxAbs v / 32767))
    nlinarith [abs_nonneg ((roundAway (v[i] / (maxAbs v / 32767)) : ℚ) -
      v[i] / (maxAbs v / 32767))]

theorem roundEntries_keys (k : KState) :
    (roundEntries k).map (fun e => e.1) = k.vectors.map Prod.fst := by
  unfold roundEntries
  rw [List.map_map]
  rfl

theorem roundEntries_vec_pairs (k : KState) :
    (roundEntries k).map (fun e => (e.1, e.2.2)) = k.vectors := by
  unfold roundEntries
  rw [List.map_map]
  exact List.map_id _

theorem roundState_vectors (k : KState) (hnd : (k.vectors.map Prod.fst).Nodup) (j : Nat) :
    alookup j (roundState k).vectors = alookup j k.vectors := by
  unfold roundState
  rw [foldl_updateCentroid_vectors]
  show alookup j (roundS1 k).vectors = _
  unfold roundS1
  rw [build_vectors _ _ _ (by rw [roundEntries_keys]; exact hnd) j]
  rw [roundEntries_vec_pairs]
  show (alookup j k.vectors).or (alookup j []) = _
  rw [show alookup j ([] : List (Nat × Vec)) = none from rfl]
  exact Option.or_none

theorem assign_aux (m : List (Nat × Nat)) :
    ∀ (l : List (Nat × Vec)) (j v : Nat), (∀ p ∈ l, (alookup p.1 m).isSome) →
      alookup j (l.map (fun p => (p.1, (alookup p.1 m).getD 0))) = some v →
      alookup j m = some v := by
  intro l
  induction l with
  | nil => intro j v _ h; simp [alookup] at h
  | cons p rest ih =>
    intro j v hsome h
    obtain ⟨a, b⟩ := p
    simp only [List.map_cons] at h
    by_cases hj : j = a
    · subst hj
      simp only [alookup, if_pos rfl] at h
      obtain ⟨c, hc⟩ := Option.isSome_iff_exists.mp (hsome (j, b) (List.mem_cons_self _ _))
      rw [hc] at h ⊢
      simpa using h
    · simp only [alookup, if_neg hj] at h
      exact ih j v (fun q hq => hsome q (List.mem_cons_of_mem _ hq)) h

theorem roundState_v2c (k : KState) (hnd : (k.vectors.map Prod.fst).Nodup)
    (h7 : ∀ p ∈ k.vectors, (alookup p.1 k.vector_to_cluster).isSome)
    (h8 : ∀ p ∈ k.vector_to_cluster, (alookup p.1 k.vectors).isSome) (j : Nat) :
    alookup j (roundState k).vector_to_cluster = alookup j k.vector_to_cluster := by
  unfold roundState
  rw [foldl_updateCentroid_v2c]
  show alookup j (roundS1 k).vector_to_cluster = _
  unfold roundS1
  rw [build_v2c _ _ _ (by rw [roundEntries_keys]; exact hnd) j]
  have hmap : (roundEntries k).map (fun e => (e.1, e.2.1)) =
      k.vectors.map (fun p => (p.1, (alookup p.1 k.vector_to_cluster).getD 0)) := by
    unfold roundEntries
    rw [List.map_map]
    rfl
  rw [hmap]
  rw [show alookup j ([] : List (Nat × Nat)) = none from rfl]
  rw [Option.or_none]
  cases hl : alookup j (k.vectors.map (fun p => (p.1, (alookup p.1 k.vector_to_cluster).getD 0))) with
  | some c => exact (assign_aux _ _ j c h7 hl).symm
  | none =>
    cases hv : alookup j k.vector_to_cluster with
    | none => rfl
    | some c =>
      exfalso
      have h1 : (alookup j k.vectors).isSome := h8 (j, c) (alookup_mem hv)
      have h2 : j ∈ (k.vectors.map (fun p =>
          (p.1, (alookup p.1 k.vector_to_cluster).getD 0))).map Prod.fst := by
        rw [List.map_map]
        rw [alookup_isSome_keys] at h1
        exact h1
      rw [← alookup_isSome_keys, hl] at h2
      exact Bool.noConfusion h2

theorem roundState_membersD (k : KState)
    (h7 : ∀ p ∈ k.vectors, (alookup p.1 k.vector_to_cluster).isSome)
    (h8 : ∀ p ∈ k.vector_to_cluster, (alookup p.1 k.vectors).isSome)
    (h12 : ∀ p ∈ k.vector_to_cluster, p.1 ∈ membersD k p.2)
    (h13 : ∀ p ∈ k.cluster_members, ∀ id ∈ p.2, alookup id k.vector_to_cluster = some p.1)
    (c : Nat) : membersD (roundState k) c = membersD k c := by
  unfold roundState
  rw [foldl_updateCentroid_membersD]
  show membersD (roundS1 k) c = _
  unfold roundS1
  ext j
  rw [build_membersD]
  constructor
  · rintro (⟨e, he, rfl, rfl⟩ | hm)
    · obtain ⟨p, hp, rfl⟩ := List.mem_map.mp he
      obtain ⟨c0, hc0⟩ := Option.isSome_iff_exists.mp (h7 p hp)
      have := h12 (p.1, c0) (alookup_mem hc0)
      rw [hc0]
      exact this
    · exact absurd hm (by simp [membersD, alookup])
  · intro hj
    unfold membersD at hj
    cases hcm : alookup c k.cluster_members with
    | none => rw [hcm] at hj; simp at hj
    | some m =>
      rw [hcm] at hj
      have hv2c : alookup j k.vector_to_cluster = some c := h13 (c, m) (alookup_mem hcm) j hj
      obtain ⟨vj, hvj⟩ := Option.isSome_iff_exists.mp (h8 (j, c) (alookup_mem hv2c))
      left
      refine ⟨(j, c, vj), ?_, rfl, rfl⟩
      unfold roundEntries
      refine List.mem_map.mpr ⟨(j, vj), alookup_mem hvj, ?_⟩
      rw [hv2c]
      rfl

theorem roundS2_info (k : KState) (hnd3 : (k.cluster_info.map Prod.fst).Nodup) (c : Nat) :
    alookup c (roundS2 k).cluster_info = (alookup c k.cluster_info).map deqCI := by
  show alookup c (roundInfo k) = _
  unfold roundInfo
  rw [show (roundS1 k).cluster_info = [] from build_cluster_info _ _ _]
  rw [foldl_alupdate_lookup _ _ _ (by rw [List.map_map]; exact hnd3)]
  rw [show alookup c ([] : List (Nat × ClusterInfo)) = none from rfl]
  rw [Option.or_none]
  exact alookup_map_snd deqCI k.cluster_info c

theorem roundS2_info_keys (k : KState) (hnd3 : (k.cluster_info.map Prod.fst).Nodup) :
    (roundS2 k).cluster_info.map Prod.fst = k.cluster_info.map Prod.fst := by
  show (roundInfo k).map Prod.fst = _
  unfold roundInfo
  rw [show (roundS1 k).cluster_info = [] from build_cluster_info _ _ _]
  rw [foldl_alupdate_keys _ _ (by rw [List.map_map]; exact hnd3) (by intro p _; simp)]
  rw [List.map_map]
  simp

theorem centroidMean_congr (s t : KState) (hd : s.vector_dim = t.vector_dim)
    (hv : s.vectors = t.vectors) (m : Finset Nat) : centroidMean s m = centroidMean t m := by
  unfold centroidMean vecAt
  rw [hd, hv]

theorem roundS2_membersD_eq (k : KState)
    (h7 : ∀ p ∈ k.vectors, (alookup p.1 k.vector_to_cluster).isSome)
    (h8 : ∀ p ∈ k.vector_to_cluster, (alookup p.1 k.vectors).isSome)
    (h12 : ∀ p ∈ k.vector_to_cluster, p.1 ∈ membersD k p.2)
    (h13 : ∀ p ∈ k.cluster_members, ∀ id ∈ p.2, alookup id k.vector_to_cluster = some p.1)
    (c : Nat) : membersD (roundS2 k) c = membersD k c := by
  have h := roundState_membersD k h7 h8 h12 h13 c
  unfold roundState at h
  rw [foldl_updateCentroid_membersD] at h
  exact h

theorem roundState_info_empty (k : KState) (hnd3 : (k.cluster_info.map Prod.fst).Nodup)
    (h7 : ∀ p ∈ k.vectors, (alookup p.1 k.vector_to_cluster).isSome)
    (h8 : ∀ p ∈ k.vector_to_cluster, (alookup p.1 k.vectors).isSome)
    (h12 : ∀ p ∈ k.vector_to_cluster, p.1 ∈ membersD k p.2)
    (h13 : ∀ p ∈ k.cluster_members, ∀ id ∈ p.2, alookup id k.vector_to_cluster = some p.1)
    (c : Nat) (ci : ClusterInfo) (hci : alookup c k.cluster_info = some ci)
    (hm : membersD k c = ∅) :
    alookup c (roundState k).cluster_info = some (deqCI ci) := by
  unfold roundState
  rw [foldl_updateCentroid_info_of_empty _ _ _
    (by rw [roundS2_membersD_eq k h7 h8 h12 h13 c]; exact hm)]
  rw [roundS2_info k hnd3 c, hci]
  rfl

theorem roundState_info_nonempty (k : KState) (hnd3 : (k.cluster_info.map Prod.fst).Nodup)
    (h7 : ∀ p ∈ k.vectors, (alookup p.1 k.vector_to_cluster).isSome)
    (h8 : ∀ p ∈ k.vector_to_cluster, (alookup p.1 k.vectors).isSome)
    (h12 : ∀ p ∈ k.vector_to_cluster, p.1 ∈ membersD k p.2)
    (h13 : ∀ p ∈ k.cluster_members, ∀ id ∈ p.2, alookup id k.vector_to_cluster = some p.1)
    (c : Nat) (ci : ClusterInfo) (hci : alookup c k.cluster_info = some ci)
    (hm : membersD k c ≠ ∅) :
    alookup c (roundState k).cluster_info =
      some { ci with centroid := centroidMean (roundState k) (membersD k c) } := by
  have hkeys := roundS2_info_keys k hnd3
  have hcmem : c ∈ (roundS2 k).cluster_info.map Prod.fst := by
    rw [hkeys, ← alookup_isSome_keys, hci]
    rfl
  have hknodup : ((roundS2 k).cluster_info.map Prod.fst).Nodup := by
    rw [hkeys]; exact hnd3
  obtain ⟨L1, L2, hsplit⟩ := List.append_of_mem hcmem
  rw [hsplit] at hknodup
  have hcL1 : c ∉ L1 := fun hc =>
    (List.nodup_append.mp hknodup).2.2 hc (List.mem_cons_self _ _)
  have hcL2 : c ∉ L2 := (List.nodup_cons.mp (List.nodup_append.mp hknodup).2.1).1
  have hmean : centroidMean (L1.foldl updateCentroid (roundS2 k)) (membersD k c) =
      centroidMean
        (L2.foldl updateCentroid (updateCentroid (L1.foldl updateCentroid (roundS2 k)) c))
        (membersD k c) := by
    refine centroidMean_congr _ _ ?_ ?_ _
    · rw [foldl_updateCentroid_dim, foldl_updateCentroid_dim, updateCentroid_vector_dim,
        foldl_updateCentroid_dim]
    · rw [foldl_updateCentroid_vectors, foldl_updateCentroid_vectors, updateCentroid_vectors,
        foldl_updateCentroid_vectors]
  unfold roundState
  rw [hsplit, List.foldl_append, List.foldl_cons]
  rw [foldl_updateCentroid_info_of_ne _ _ _ hcL2]
  have hstAm : membersD (L1.foldl updateCentroid (roundS2 k)) c = membersD k c := by
    rw [foldl_updateCentroid_membersD, roundS2_membersD_eq k h7 h8 h12 h13 c]
  have hstAi : alookup c (L1.foldl updateCentroid (roundS2 k)).cluster_info =
      some (deqCI ci) := by
    rw [foldl_updateCentroid_info_of_ne _ _ _ hcL1, roundS2_info k hnd3 c, hci]
    rfl
  rw [updateCentroid_info_self_of_some _ c (deqCI ci) (by rw [hstAm]; exact hm) hstAi]
  rw [hstAm, hmean]
  rfl

/-- C2 (amended): for every well-formed strategy state, serialize followed
by deserialize succeeds and restores the vector-id-to-cluster-id
assignments, the set of stored vector ids with their float data, and the
cluster member sets exactly; the cluster_info centroid of a cluster
without members is the dequantized original, each component within
quantization error quantScale of the original, while the centroid of a
cluster with members is recomputed as the exact mean of the restored
member vectors (not, in general, the serialized centroid). -/
theorem C2_roundtrip_amended (k : KState) (h : WFK k) :
    ∃ k', deserializeK (serializeK k) = some k' ∧
      (∀ j, alookup j k'.vector_to_cluster = alookup j k.vector_to_cluster) ∧
      (∀ j, alookup j k'.vectors = alookup j k.vectors) ∧
      (∀ c, membersD k' c = membersD k c) ∧
      (∀ c ci, alookup c k.cluster_info = some ci → membersD k c = ∅ →
        alookup c k'.cluster_info = some { ci with centroid := dequantCentroid ci.centroid } ∧
        ∀ i, i < ci.centroid.length →
          |(dequantCentroid ci.centroid).getD i 0 - ci.centroid.getD i 0| ≤
            quantScale ci.centroid) ∧
      (∀ c ci, alookup c k.cluster_info = some ci → membersD k c ≠ ∅ →
        alookup c k'.cluster_info =
          some { ci with centroid := centroidMean k' (membersD k c) }) := by
  obtain ⟨hnd1, hnd2, hnd3, hnd4, hnd5, hcne, h7, h8, h9, h10, h11, h12, h13, h14⟩ := h
  refine ⟨roundState k, deserializeK_serializeK k h11, ?_, ?_, ?_, ?_, ?_⟩
  · exact roundState_v2c k hnd1 h7 h8
  · exact roundState_vectors k hnd1
  · exact roundState_membersD k h7 h8 h12 h13
  · intro c ci hci hm
    exact ⟨roundState_info_empty k hnd3 h7 h8 h12 h13 c ci hci hm,
      fun i hi => dequant_err _ i hi⟩
  · intro c ci hci hm
    exact roundState_info_nonempty k hnd3 h7 h8 h12 h13 c ci hci hm

unseal Rat.mul Rat.inv Rat.add Rat.sub in
/-- Witness for C2_roundtrip_amended at cexC2k. -/
theorem C2_roundtrip_witness :
    WFK cexC2k ∧
      (∃ k', deserializeK (serializeK cexC2k) = some k' ∧
        (∀ j, alookup j k'.vector_to_cluster = alookup j cexC2k.vector_to_cluster) ∧
        (∀ j, alookup j k'.vectors = alookup j cexC2k.vectors) ∧
        (∀ c, membersD k' c = membersD cexC2k c) ∧
        (∀ c ci, alookup c cexC2k.cluster_info = some ci → membersD cexC2k c = ∅ →
          alookup c k'.cluster_info =
            some { ci with centroid := dequantCentroid ci.centroid } ∧
          ∀ i, i < ci.centroid.length →
            |(dequantCentroid ci.centroid).getD i 0 - ci.centroid.getD i 0| ≤
              quantScale ci.centroid) ∧
        (∀ c ci, alookup c cexC2k.cluster_info = some ci → membersD cexC2k c ≠ ∅ →
          alookup c k'.cluster_info =
            some { ci with centroid := centroidMean k' (membersD cexC2k c) })) :=
  ⟨by decide, C2_roundtrip_amended cexC2k (by decide)⟩

/-- C10: deleteVector reads the stored vector from the device before any
mutation; a failed read (or a missing id) aborts with an error and the
exact prior state, and on a successful read the resulting state is the
same expression whatever vector was read: the bytes are never used by
the removal. -/
theorem C10_delete_read_failure (s : StoreState) (id : Nat) :
    (alookup id s.vector_map = none → deleteVector s id = (false, s)) ∧
    (∀ e, alookup id s.vector_map = some e → readVectorAt s e.offset = none →
      deleteVector s id = (false, s)) ∧
    (∀ e, alookup id s.vector_map = some e → (readVectorAt s e.offset).isSome →
      (deleteVector s id).2 = { s with
        strat := (removeVector s.strat id).2,
        vector_map := alerase id s.vector_map }) := by
  refine ⟨?_, ?_, ?_⟩
  · intro h
    unfold deleteVector
    rw [h]
  · intro e h1 h2
    unfold deleteVector
    rw [h1]
    dsimp only
    rw [h2]
  · intro e h1 h3
    obtain ⟨v, hv⟩ := Option.isSome_iff_exists.mp h3
    unfold deleteVector
    rw [h1]
    dsimp only
    rw [hv]
    dsimp only
    rw [pairIf_snd]

/-- Witness for C10_delete_read_failure at witC10store. -/
theorem C10_delete_witness :
    alookup 7 witC10store.vector_map = some ⟨7, 0, 200, []⟩ ∧
    readVectorAt witC10store 200 = none ∧
    deleteVector witC10store 7 = (false, witC10store) :=
  ⟨rfl, rfl,
    (C10_delete_read_failure witC10store 7).2.1 ⟨7, 0, 200, []⟩ rfl rfl⟩

end VecStore
